import Mathlib

/-!
Verification of the statement-normalization engine of the
`finprogress-sberbank` repository (a Python service that parses broker
XLS statements into canonical operations).

Modelling conventions (shallow embedding of the Python sources):

* Python strings are modelled as lists of characters (`Str := List Char`);
  `lit` builds one from a Lean string literal.
* Python floats are modelled as exact rationals extended with the special
  IEEE values (`PyFloat`: `finite q`, `inf`, `ninf`, `nan`).  Double
  rounding and overflow above 1e308 are outside the model; NaN
  propagation and NaN comparison semantics are modelled.
* Python's `float(str)` conversion is modelled by `pyFloatParse`,
  implementing CPython's accepted grammar over ASCII text (optional sign,
  digits with underscore grouping, optional fraction and exponent, the
  words inf/infinity/nan case-insensitively).  Non-ASCII input makes the
  conversion fail, as in CPython, where only non-ASCII decimal digits and
  spaces are transliterated; such digits do not occur in broker
  statements and are not modelled.
* `str.lower`/`str.upper` are modelled for ASCII and the Cyrillic block
  actually used by the source's keyword tables.
* Exceptions are modelled with `Option`/`Except`; a `try/except` boundary
  becomes a `match`.
-/

abbrev Str := List Char

def lit (s : String) : Str := s.data

/-- Whitespace for Python's `str.strip` and `float()` (ASCII whitespace and
the no-break space; other exotic Unicode spaces do not occur in the inputs
modelled here). -/
def isPyWs (c : Char) : Bool :=
  decide (c.toNat = 32 ∨ c.toNat = 9 ∨ c.toNat = 10 ∨ c.toNat = 13 ∨
    c.toNat = 11 ∨ c.toNat = 12 ∨ c.toNat = 0xA0)

/-- Python `str.strip()`. -/
def pyStrip (s : Str) : Str :=
  ((s.dropWhile isPyWs).reverse.dropWhile isPyWs).reverse

/-- Python `str.replace(a, b)` for one-character patterns. -/
def replaceChar (a b : Char) (s : Str) : Str :=
  s.map (fun c => if c = a then b else c)

/-- Python `str.replace(a, "")` for a one-character pattern. -/
def removeChar (a : Char) (s : Str) : Str :=
  s.filter (fun c => ¬ c = a)

/-- Python `str.lower` on ASCII letters and the Cyrillic А-Я/Ё block. -/
def lowerChar (c : Char) : Char :=
  let n := c.toNat
  if 65 ≤ n ∧ n ≤ 90 then Char.ofNat (n + 32)
  else if 0x410 ≤ n ∧ n ≤ 0x42F then Char.ofNat (n + 32)
  else if n = 0x401 then Char.ofNat 0x451
  else c

/-- Python `str.upper` on ASCII letters and the Cyrillic а-я/ё block. -/
def upperChar (c : Char) : Char :=
  let n := c.toNat
  if 97 ≤ n ∧ n ≤ 122 then Char.ofNat (n - 32)
  else if 0x430 ≤ n ∧ n ≤ 0x44F then Char.ofNat (n - 32)
  else if n = 0x451 then Char.ofNat 0x401
  else c

def lowerStr (s : Str) : Str := s.map lowerChar

def upperStr (s : Str) : Str := s.map upperChar

/-- Whether `p` is a prefix of `s` (Boolean, by character equality). -/
def startsWithStr : Str → Str → Bool
  | _, [] => true
  | [], _ :: _ => false
  | c :: cs, p :: ps => c = p && startsWithStr cs ps

/-- Python's substring test `p in s`. -/
def containsSub : Str → Str → Bool
  | s, p =>
    if startsWithStr s p then true
    else
      match s with
      | [] => false
      | _ :: rest => containsSub rest p

/-- Python floats: exact rationals plus the IEEE special values. -/
inductive PyFloat where
  | finite (q : ℚ)
  | inf
  | ninf
  | nan
deriving DecidableEq

/-- Python `abs` on a float (`abs(nan)` is `nan`). -/
def PyFloat.pyAbs : PyFloat → PyFloat
  | .finite q => .finite (if q < 0 then -q else q)
  | .inf => .inf
  | .ninf => .inf
  | .nan => .nan

/-- Python unary minus on a float. -/
def PyFloat.pyNeg : PyFloat → PyFloat
  | .finite q => .finite (-q)
  | .inf => .ninf
  | .ninf => .inf
  | .nan => .nan

/-- Python `x == 0` on a float: NaN compares unequal to everything. -/
def PyFloat.eqZero : PyFloat → Bool
  | .finite q => decide (q = 0)
  | _ => false

/-- Python `x > 0` on a float: false for NaN. -/
def PyFloat.gtZero : PyFloat → Bool
  | .finite q => decide (0 < q)
  | .inf => true
  | _ => false

/-- Python `x < 0` on a float: false for NaN. -/
def PyFloat.ltZero : PyFloat → Bool
  | .finite q => decide (q < 0)
  | .ninf => true
  | _ => false

/-- Python `x >= 0` on a float: false for NaN. -/
def PyFloat.geZero : PyFloat → Bool
  | .finite q => decide (0 ≤ q)
  | .inf => true
  | _ => false

/-- Python `x + y` on floats (NaN propagates, `inf + -inf` is NaN). -/
def PyFloat.pyAdd : PyFloat → PyFloat → PyFloat
  | .nan, _ => .nan
  | _, .nan => .nan
  | .finite a, .finite b => .finite (a + b)
  | .inf, .ninf => .nan
  | .ninf, .inf => .nan
  | .inf, _ => .inf
  | _, .inf => .inf
  | .ninf, _ => .ninf
  | _, .ninf => .ninf

def digitVal (c : Char) : ℕ := c.toNat - 48

def isDigitCh (c : Char) : Bool := decide (48 ≤ c.toNat ∧ c.toNat ≤ 57)

/-- Digit run with CPython's underscore-grouping rule (an underscore must
stand between two digits).  Returns the accumulated value, the number of
digits read and the rest; `none` on a misplaced underscore. -/
def parseDigGroup : ℕ → ℕ → Str → Option (ℕ × ℕ × Str)
  | acc, cnt, [] => some (acc, cnt, [])
  | acc, cnt, c :: rest =>
    if isDigitCh c then parseDigGroup (10 * acc + digitVal c) (cnt + 1) rest
    else if c = '_' then
      match rest with
      | c2 :: rest2 =>
        if cnt ≠ 0 && isDigitCh c2 then
          parseDigGroup (10 * acc + digitVal c2) (cnt + 1) rest2
        else none
      | [] => none
    else some (acc, cnt, c :: rest)

/-- Exact rational from mantissa and a power-of-ten denominator, built with
`Rat.divInt` so that it computes by kernel reduction. -/
def qOfParts (m : ℕ) (den : ℕ) : ℚ := Rat.divInt (m : ℤ) (den : ℤ)

/-- The numeric part of CPython's float grammar (after sign handling):
`digits [. digits] [e[sign]digits]` or `. digits [e[sign]digits]`, with
mandatory full consumption of the input. -/
def pyParseNum (s : Str) : Option ℚ :=
  match parseDigGroup 0 0 s with
  | none => none
  | some (ip, ic, r1) =>
    let fracRes : Option (ℕ × ℕ × Str) :=
      match r1 with
      | '.' :: r2 => parseDigGroup 0 0 r2
      | _ => some (0, 0, r1)
    match fracRes with
    | none => none
    | some (fp, fc, r3) =>
      if ic + fc = 0 then none
      else
        let m : ℕ := ip * 10 ^ fc + fp
        match r3 with
        | [] => some (qOfParts m (10 ^ fc))
        | 'e' :: r4 => pyParseExpTail m fc r4
        | 'E' :: r4 => pyParseExpTail m fc r4
        | _ => none
where
  pyParseExpTail (m fc : ℕ) (r : Str) : Option ℚ :=
    let (eneg, r5) :=
      match r with
      | '+' :: r5 => (false, r5)
      | '-' :: r5 => (true, r5)
      | r5 => (false, r5)
    match parseDigGroup 0 0 r5 with
    | none => none
    | some (ev, ec, r6) =>
      if ec = 0 then none
      else if r6 = [] then
        some (if eneg then qOfParts m (10 ^ (fc + ev))
          else qOfParts (m * 10 ^ ev) (10 ^ fc))
      else none

/-- CPython's `float(s)` on a string: `none` models a raised `ValueError`.
Strips whitespace, handles an optional sign, the words inf/infinity/nan
(case-insensitively) and the decimal grammar; any other non-ASCII
character (such as the Unicode minus U+2212) makes it fail. -/
def pyFloatParse (s : Str) : Option PyFloat :=
  let t := pyStrip s
  if t.any (fun c => decide (128 ≤ c.toNat)) then none
  else
    let signed : Bool × Str :=
      match t with
      | '+' :: r => (false, r)
      | '-' :: r => (true, r)
      | r => (false, r)
    let neg := signed.1
    let u := signed.2
    let ul := lowerStr u
    if ul = lit "inf" ∨ ul = lit "infinity" then
      some (if neg then .ninf else .inf)
    else if ul = lit "nan" then some .nan
    else (pyParseNum u).map (fun q => .finite (if neg then -q else q))

/-- The normalization the first attempt of `to_float_safe` applies to the
stripped text: NBSP to space, drop spaces, comma to dot. -/
def normalizeNum (t : Str) : Str :=
  replaceChar ',' '.' (removeChar ' ' (replaceChar (Char.ofNat 0xA0) ' ' t))

/-- Model of `utils.to_float_safe` on a string input.  The source first
strips, returns 0.0 for "", "-", "--", then tries `float` on the
normalized text, then `float` on the raw text with commas as dots, and
finally falls back to 0.0; no exception escapes. -/
def toFloatSafeStr (s : Str) : PyFloat :=
  let t := pyStrip s
  if t = [] ∨ t = lit "-" ∨ t = lit "--" then .finite 0
  else
    match pyFloatParse (normalizeNum t) with
    | some x => x
    | none =>
      match pyFloatParse (replaceChar ',' '.' s) with
      | some y => y
      | none => .finite 0

example : toFloatSafeStr (lit "") = .finite 0 := by decide
example : toFloatSafeStr (lit "1 234,56") = .finite (Rat.divInt 123456 100) := by decide
example : toFloatSafeStr (lit "1.234,56") = .finite 0 := by decide
example : toFloatSafeStr (lit "−5") = .finite 0 := by decide
example : toFloatSafeStr (lit "-5.25") = .finite (Rat.divInt (-525) 100) := by decide
example : toFloatSafeStr (lit "nan") = .nan := by decide
example : Rat.divInt 123456 100 = (1234.56 : ℚ) := by
  rw [Rat.divInt_eq_div]; norm_num

/-! Datetimes.  Python `datetime` objects are modelled without microseconds
(none of the parsing paths in this repository produces them). -/

structure PDateTime where
  year : ℕ
  month : ℕ
  day : ℕ
  hour : ℕ
  minute : ℕ
  second : ℕ
deriving DecidableEq

def isLeapYear (y : ℕ) : Bool :=
  decide ((y % 4 = 0 ∧ y % 100 ≠ 0) ∨ y % 400 = 0)

def daysInMonth (y m : ℕ) : ℕ :=
  if m = 2 then (if isLeapYear y then 29 else 28)
  else if m = 4 ∨ m = 6 ∨ m = 9 ∨ m = 11 then 30
  else 31

/-- The `datetime(...)` constructor: `none` models the `ValueError` raised
on an out-of-range component. -/
def mkDT (y mo d h mi s : ℕ) : Option PDateTime :=
  if 1 ≤ y ∧ y ≤ 9999 ∧ 1 ≤ mo ∧ mo ≤ 12 ∧ 1 ≤ d ∧ d ≤ daysInMonth y mo ∧
      h ≤ 23 ∧ mi ≤ 59 ∧ s ≤ 59 then
    some ⟨y, mo, d, h, mi, s⟩
  else none

def natToStr (n : ℕ) : Str := Nat.toDigits 10 n

def intToStr (i : ℤ) : Str :=
  if i < 0 then '-' :: natToStr i.natAbs else natToStr i.natAbs

def padTo (k : ℕ) (s : Str) : Str :=
  List.replicate (k - s.length) '0' ++ s

def pad2 (n : ℕ) : Str := padTo 2 (natToStr n)

def pad4 (n : ℕ) : Str := padTo 4 (natToStr n)

/-- Python `datetime.isoformat()` (microseconds are always zero here). -/
def isoformatDT (d : PDateTime) : Str :=
  pad4 d.year ++ [ '-' ] ++ pad2 d.month ++ [ '-' ] ++ pad2 d.day ++ [ 'T' ] ++
    pad2 d.hour ++ [ ':' ] ++ pad2 d.minute ++ [ ':' ] ++ pad2 d.second

/-- Python `str(datetime)` (space instead of the T). -/
def strDT (d : PDateTime) : Str :=
  pad4 d.year ++ [ '-' ] ++ pad2 d.month ++ [ '-' ] ++ pad2 d.day ++ [ ' ' ] ++
    pad2 d.hour ++ [ ':' ] ++ pad2 d.minute ++ [ ':' ] ++ pad2 d.second

/-- Python `datetime.strftime("%d.%m.%Y")`. -/
def strftimeDMY (d : PDateTime) : Str :=
  pad2 d.day ++ [ '.' ] ++ pad2 d.month ++ [ '.' ] ++ pad4 d.year

/-- Python `s.split(sep)` for a one-character separator (keeps empty parts). -/
def splitOnChar (sep : Char) : Str → List Str
  | [] => [[]]
  | c :: rest =>
    let r := splitOnChar sep rest
    if c = sep then [] :: r
    else
      match r with
      | h :: t => (c :: h) :: t
      | [] => [[c]]

/-- Python `s.split()` (split on whitespace runs, dropping empty parts). -/
def splitWs (s : Str) : List Str :=
  ((splitOnChar ' ' (s.map (fun c => if isPyWs c then ' ' else c))).filter
    (fun t => ¬ t = []))

/-- All-digit token of between `lo` and `hi` characters, as a number. -/
def parseDigitsLen (lo hi : ℕ) (s : Str) : Option ℕ :=
  if lo ≤ s.length ∧ s.length ≤ hi ∧ s.all isDigitCh then
    some (s.foldl (fun acc c => 10 * acc + digitVal c) 0)
  else none

/-- One `%H:%M:%S` time token of `strptime` (fields of 1-2 digits, range
checked by the `datetime` constructor afterwards). -/
def parseHMScolon (s : Str) : Option (ℕ × ℕ × ℕ) :=
  match splitOnChar ':' s with
  | [hs, ms, ss] => do
    let h ← parseDigitsLen 1 2 hs
    let m ← parseDigitsLen 1 2 ms
    let sec ← parseDigitsLen 1 2 ss
    pure (h, m, sec)
  | _ => none

/-- The date part of `strptime(..., "%Y-%m-%d")`: a 4-digit year and 1-2
digit month and day (this is what CPython's `%Y`/`%m`/`%d` accept). -/
def parseYMDdash (s : Str) : Option (ℕ × ℕ × ℕ) :=
  match splitOnChar '-' s with
  | [ys, ms, ds] => do
    let y ← parseDigitsLen 4 4 ys
    let m ← parseDigitsLen 1 2 ms
    let d ← parseDigitsLen 1 2 ds
    pure (y, m, d)
  | _ => none

/-- The date part of `strptime(..., "%d.%m.%Y")`. -/
def parseDMYdots (s : Str) : Option (ℕ × ℕ × ℕ) :=
  match splitOnChar '.' s with
  | [ds, ms, ys] => do
    let y ← parseDigitsLen 4 4 ys
    let m ← parseDigitsLen 1 2 ms
    let d ← parseDigitsLen 1 2 ds
    pure (y, m, d)
  | _ => none

/-- The date part of `strptime(..., "%d.%m.%y")`, with CPython's two-digit
year pivot (69-99 means 19xx, 0-68 means 20xx). -/
def parseDMYdots2 (s : Str) : Option (ℕ × ℕ × ℕ) :=
  match splitOnChar '.' s with
  | [ds, ms, ys] => do
    let y2 ← parseDigitsLen 2 2 ys
    let m ← parseDigitsLen 1 2 ms
    let d ← parseDigitsLen 1 2 ds
    pure (if 69 ≤ y2 then 1900 + y2 else 2000 + y2, m, d)
  | _ => none

/-- Python `datetime.strptime(s, "%Y-%m-%d")`. -/
def strptimeYmd (s : Str) : Option PDateTime := do
  let (y, m, d) ← parseYMDdash s
  mkDT y m d 0 0 0

/-- Python `datetime.strptime(s, "%Y-%m-%d %H:%M:%S")` (the whitespace in
the format matches a whitespace run). -/
def strptimeYmdHms (s : Str) : Option PDateTime :=
  match splitWs s with
  | [dtok, ttok] => do
    let (y, m, d) ← parseYMDdash dtok
    let (h, mi, sec) ← parseHMScolon ttok
    mkDT y m d h mi sec
  | _ => none

/-- Python `datetime.fromisoformat` as it accepts the strings produced in
this code base: a zero-padded `YYYY-MM-DD`, optionally followed by a
separator character and `HH:MM[:SS]` (fractional seconds do not occur). -/
def fromIsoFormat (s : Str) : Option PDateTime :=
  let datePart := s.take 10
  let rest := s.drop 10
  match splitOnChar '-' datePart with
  | [ys, ms, ds] => do
    let y ← parseDigitsLen 4 4 ys
    let m ← parseDigitsLen 2 2 ms
    let d ← parseDigitsLen 2 2 ds
    match rest with
    | [] => mkDT y m d 0 0 0
    | _ :: t =>
      match splitOnChar ':' t with
      | [hs, mis] => do
        let h ← parseDigitsLen 2 2 hs
        let mi ← parseDigitsLen 2 2 mis
        mkDT y m d h mi 0
      | [hs, mis, ss] => do
        let h ← parseDigitsLen 2 2 hs
        let mi ← parseDigitsLen 2 2 mis
        let sec ← parseDigitsLen 2 2 ss
        mkDT y m d h mi sec
      | _ => none
  | _ => none

/-- Model of `utils.parse_datetime_from_components`.  An empty date string
is falsy in Python, hence `none`. -/
def parseDatetimeFromComponents (dateStr : Str) (timeStr : Option Str) :
    Option PDateTime :=
  if dateStr = [] then none
  else
    let hasT := dateStr.any (fun c => c = 'T')
    let datePart := (splitOnChar 'T' dateStr).headD []
    let tryMain : Option PDateTime :=
      if hasT then
        match timeStr with
        | some ts =>
          if ts = [] then fromIsoFormat dateStr
          else
            let timeClean := (splitOnChar '.' ts).headD []
            strptimeYmdHms (datePart ++ [ ' ' ] ++ timeClean)
        | none => fromIsoFormat dateStr
      else
        match timeStr with
        | some ts =>
          if ts = [] then strptimeYmd dateStr
          else strptimeYmdHms (dateStr ++ [ ' ' ] ++ ts)
        | none => strptimeYmd dateStr
    match tryMain with
    | some d => some d
    | none =>
      if hasT then strptimeYmd datePart else strptimeYmd dateStr

/-! Cells of a spreadsheet grid, as the pandas DataFrame hands them to
the parsers: text, numbers, datetimes or NaN (empty). -/

inductive Cell where
  | empty
  | s (v : Str)
  | num (q : ℚ)
  | dt (d : PDateTime)
deriving DecidableEq

/-- Python `str(float)` restricted to the values that can reach the text
paths of this code base: terminating decimals.  Integral floats render as
`N.0`; other terminating decimals with their minimal number of digits.
(The shortest-repr algorithm of CPython agrees on such values.) -/
def qStr (q : ℚ) : Str :=
  if q.den = 1 then intToStr q.num ++ [ '.' , '0' ]
  else
    match (List.range 20).find? (fun k => (10 ^ k : ℤ) % (q.den : ℤ) = 0) with
    | some k =>
      let scaled : ℤ := q.num * ((10 ^ k : ℤ) / (q.den : ℤ))
      let digits := padTo k (natToStr scaled.natAbs)
      let ip := digits.take (digits.length - k)
      let fp := digits.drop (digits.length - k)
      (if q.num < 0 then [ '-' ] else []) ++
        (if ip = [] then [ '0' ] else ip) ++ [ '.' ] ++ fp
    | none => intToStr q.num ++ [ '/' ] ++ natToStr q.den

/-- Python `str(cell)`: NaN prints as "nan". -/
def cellStr : Cell → Str
  | .empty => lit "nan"
  | .s v => v
  | .num q => qStr q
  | .dt d => strDT d

/-- Python `pd.isna(cell)`. -/
def cellIsNa : Cell → Bool
  | .empty => true
  | _ => false

/-- Model of `utils.to_float_safe` applied to a raw cell: a numeric cell
round-trips through `str` exactly, anything else goes through the string
path (NaN prints as "nan", which `float` parses back to NaN). -/
def toFloatSafeCell : Cell → PyFloat
  | .num q => .finite q
  | c => toFloatSafeStr (cellStr c)

abbrev Row := List Cell

abbrev Grid := List Row

/-! Identifier extraction (`utils.ISIN_RE` and friends). -/

def isAsciiLetter (c : Char) : Bool :=
  decide ((65 ≤ c.toNat ∧ c.toNat ≤ 90) ∨ (97 ≤ c.toNat ∧ c.toNat ≤ 122))

def isAsciiAlnum (c : Char) : Bool := isAsciiLetter c || isDigitCh c

/-- Word characters for the regex `\b` boundary: ASCII alphanumerics, the
underscore, and the Cyrillic letters that occur in the statements (Python's
`\w` covers all Unicode letters; the keyword tables here use only these). -/
def isWordChar (c : Char) : Bool :=
  isAsciiAlnum c || decide (c.toNat = 95 ∨ (0x410 ≤ c.toNat ∧ c.toNat ≤ 0x44F) ∨
    c.toNat = 0x401 ∨ c.toNat = 0x451)

/-- The shape matched by `ISIN_RE` between its word boundaries: two ASCII
letters, nine ASCII alphanumerics, one digit (case-insensitive). -/
def isinShape (w : Str) : Bool :=
  match w with
  | c0 :: c1 :: rest =>
    isAsciiLetter c0 && isAsciiLetter c1 && decide (rest.length = 10) &&
      (rest.take 9).all isAsciiAlnum &&
      (match rest.drop 9 with
       | [d] => isDigitCh d
       | _ => false)
  | _ => false

/-- Leftmost `ISIN_RE.search` over the text; `prevWord` tracks whether the
character before the current position is a word character. -/
def findIsin (prevWord : Bool) : Str → Option Str
  | [] => none
  | c :: rest =>
    let w := c :: rest.take 11
    let boundaryAfter : Bool :=
      match rest.drop 11 with
      | [] => true
      | d :: _ => ¬ isWordChar d
    if ¬ prevWord && isinShape w && boundaryAfter then some w
    else findIsin (isWordChar c) rest

/-- Model of `utils.extract_isin`. -/
def extractIsin (commentText : Str) : Str :=
  if commentText = [] then []
  else
    match findIsin false commentText with
    | some w => w
    | none => []

/-- Model of `utils.extract_isin_from_attr`: on no match it falls back to
the stripped input itself. -/
def extractIsinFromAttr (s : Str) : Str :=
  if s = [] then []
  else
    match findIsin false s with
    | some w => upperStr w
    | none => pyStrip s

example : extractIsin (lit "купон RU000A0JX0J2 выплата") = lit "RU000A0JX0J2" := by decide
example : extractIsin (lit "без кода") = [] := by decide
example : extractIsinFromAttr (lit " Газпром ао ") = lit "Газпром ао" := by decide

/-! The operation classifier (`operation_classifier.py`). -/

def skipOperationsList : List Str :=
  [ lit "Расчеты по сделке", lit "Комиссия по сделке", lit "НКД по сделке",
    lit "Покупка/Продажа", lit "Покупка/Продажа (репо)",
    lit "Переводы между площадками" ]

def operationTypeMapList : List (Str × Str) :=
  [ (lit "Возмещение", lit "commission_refund"),
    (lit "Дивиденды", lit "dividend"),
    (lit "Купонный доход", lit "coupon"),
    (lit "Погашение купона", lit "coupon") ]

def transferCommentPatternsList : List (Str × List Str) :=
  [ (lit "coupon", [ lit "погашение купона", lit "погашением купона" ]),
    (lit "amortization",
      [ lit "частичное погашение номинала", lit "частичном погашении номинала" ]),
    (lit "repayment",
      [ lit "полное погашение номинала", lit "полном погашении номинала",
        lit "досрочное погашение номинала" ]),
    (lit "deposit",
      [ lit "из ао \x22альфа-банк", lit "из ао альфа-банк", lit "card2catd",
        lit "card2bpk" ]),
    (lit "dividend", [ lit "дивиденд" ]),
    (lit "withdrawal",
      [ lit "списание по поручению клиента", lit "возврат средств по дог" ]),
    (lit "other_income",
      [ lit "выплата по поручению клиента в рамках",
        lit "исполнение обязательств" ]) ]

def currencyDictList : List (Str × Str) :=
  [ (lit "AED", lit "AED"), (lit "AMD", lit "AMD"), (lit "BYN", lit "BYN"),
    (lit "CHF", lit "CHF"), (lit "CNY", lit "CNY"), (lit "EUR", lit "EUR"),
    (lit "GBP", lit "GBP"), (lit "HKD", lit "HKD"), (lit "JPY", lit "JPY"),
    (lit "KGS", lit "KGS"), (lit "KZT", lit "KZT"), (lit "NOK", lit "NOK"),
    (lit "RUB", lit "RUB"), (lit "РУБЛЬ", lit "RUB"), (lit "Рубль", lit "RUB"),
    (lit "SEK", lit "SEK"), (lit "TJS", lit "TJS"), (lit "TRY", lit "TRY"),
    (lit "USD", lit "USD"), (lit "UZS", lit "UZS"), (lit "XAG", lit "XAG"),
    (lit "XAU", lit "XAU"), (lit "ZAR", lit "ZAR") ]

/-- Model of `OperationClassifier.determine_operation_type`.  The single
dynamic handler (НДФЛ) branches on the amount's sign; then the exact
label map, the substring label map, the transfer-comment patterns, and
finally the trimmed raw label or "unknown". -/
def determineOperationType (operTypeVal commentText : Str) (paymentSum : ℚ) :
    Str :=
  let operLower := lowerStr operTypeVal
  let commentLower := lowerStr commentText
  if containsSub operLower (lowerStr (lit "НДФЛ")) then
    (if 0 < paymentSum then lit "refund" else lit "withholding")
  else
    match operationTypeMapList.find? (fun kv => kv.1 = operTypeVal) with
    | some kv => kv.2
    | none =>
      match operationTypeMapList.find?
          (fun kv => containsSub operLower (lowerStr kv.1)) with
      | some kv => kv.2
      | none =>
        if containsSub operLower (lit "перевод") then
          match transferCommentPatternsList.find?
              (fun tp => tp.2.any (fun p => containsSub commentLower p)) with
          | some tp => tp.1
          | none => lit "transfer"
        else if pyStrip operTypeVal = [] then lit "unknown"
        else pyStrip operTypeVal

/-- Model of `OperationClassifier.should_skip_operation`. -/
def shouldSkipOperation (labelSource : Str) : Bool :=
  if labelSource = [] then true
  else
    skipOperationsList.any
      (fun p => containsSub (lowerStr labelSource) (lowerStr p))

example : determineOperationType (lit "Дивиденды") (lit "") 5 = lit "dividend" := by decide
example : determineOperationType (lit "Удержание НДФЛ") (lit "") (-3) = lit "withholding" := by decide
example : determineOperationType (lit "Перевод") (lit "конвертация") 1 = lit "transfer" := by decide
example : shouldSkipOperation (lit "покупка/продажа (репо) x") = true := by decide

/-! Registration-number extraction (`utils.REG_NUMBER_PATTERNS`): three
ranked regex patterns, first match wins.  The bounded backtracking of the
"full" pattern (greedy repetition shrinking until the trailing word
boundary holds) is implemented explicitly. -/

def isAlnumRu (c : Char) : Bool :=
  isAsciiAlnum c || decide (0x410 ≤ c.toNat ∧ c.toNat ≤ 0x44F)

def isClassX (c : Char) : Bool := isAlnumRu c || decide (c = '-' ∨ c = '/')

def charAt (s : Str) (i : ℕ) : Option Char := s.get? i

def wordAt (s : Str) (i : ℕ) : Bool :=
  match charAt s i with
  | some c => isWordChar c
  | none => false

def runLenAt (p : Char → Bool) (s : Str) (i : ℕ) : ℕ :=
  ((s.drop i).takeWhile p).length

def sliceOf (s : Str) (i n : ℕ) : Str := (s.drop i).take n

/-- Word boundary of `re` at offset `i` of `s`. -/
def boundaryAt (s : Str) (i : ℕ) : Bool :=
  (if i = 0 then false else wordAt s (i - 1)) != wordAt s i

/-- The "full" pattern at start offset `p`: a word boundary, one digit,
up to 7 more alphanumerics, a dash or slash, then a dash-slash-alphanumeric
run containing at least one digit, closed by a word boundary (IGNORECASE).
Returns the matched text. -/
def regFullAt (s : Str) (p : ℕ) : Option Str :=
  if ¬ boundaryAt s p then none
  else if ¬ (charAt s p).elim false isDigitCh then none
  else
    let a := min 7 (runLenAt isAlnumRu s (p + 1))
    ((List.range (a + 1)).reverse.findSome? fun k =>
      if (charAt s (p + 1 + k)).elim false (fun c => c = '-' || c = '/') then
        let tailStart := p + 2 + k
        let t := runLenAt isClassX s tailStart
        ((List.range (t + 1)).reverse.findSome? fun w =>
          if 0 < w ∧ (sliceOf s tailStart w).any isDigitCh ∧
              boundaryAt s (tailStart + w) then
            some (sliceOf s p (2 + k + w))
          else none)
      else none)

/-- The "short" pattern `\b\d{8}[A-Za-zА-Яа-я]\b` at offset `p`. -/
def regShortAt (s : Str) (p : ℕ) : Option Str :=
  let w := sliceOf s p 9
  let lastLetter : Bool :=
    match w.drop 8 with
    | [c] => isAsciiLetter c || decide (0x410 ≤ c.toNat ∧ c.toNat ≤ 0x44F)
    | _ => false
  if boundaryAt s p && (w.take 8).all isDigitCh && decide (w.length = 9) &&
      lastLetter && ¬ wordAt s (p + 9) then
    some w
  else none

/-- The "rare" pattern `\b[A-Z]{2}[0-9A-Z]{7,10}\b` (IGNORECASE) at `p`:
two ASCII letters then an alphanumeric run of length 7-10 closed by a
word boundary. -/
def regRareAt (s : Str) (p : ℕ) : Option Str :=
  if boundaryAt s p ∧ (sliceOf s p 2).all isAsciiLetter ∧
      decide ((sliceOf s p 2).length = 2) then
    let r := runLenAt isAsciiAlnum s (p + 2)
    if 7 ≤ r ∧ r ≤ 10 ∧ ¬ wordAt s (p + 2 + r) then some (sliceOf s p (2 + r))
    else none
  else none

def searchPat (pat : Str → ℕ → Option Str) (s : Str) : Option Str :=
  (List.range (s.length + 1)).findSome? (pat s)

/-- Model of `utils.extract_reg_number`: the ranked patterns full, short,
rare; empty text gives "". -/
def extractRegNumber (commentText : Str) : Str :=
  if commentText = [] then []
  else
    match searchPat regFullAt commentText with
    | some m => m
    | none =>
      match searchPat regShortAt commentText with
      | some m => m
      | none =>
        match searchPat regRareAt commentText with
        | some m => m
        | none => []

example : extractRegNumber (lit "рег 1-02-65104-D думать") = lit "1-02-65104-D" := by decide
example : extractRegNumber (lit "пусто тут") = [] := by decide

/-! The canonical Operation record (`OperationDTO.py`).

The dataclass's `__post_init__` re-parses a string date (no parser ever
passes one: they pass `datetime` or skip the row), derives `_sort_key`
(dropped again by `to_dict`), and passes `quantity`, `aci` and
`commission` through `to_float_safe`; on the numeric values the parsers
supply, `to_float_safe(str(x))` is the identity (also on NaN and
infinities), so the constructor stores the fields as given. -/

structure OperationDTO where
  date : Option PDateTime
  operationType : Str
  paymentSum : PyFloat
  currency : Str
  ticker : Str
  isin : Str
  regNumber : Str
  price : PyFloat
  quantity : PyFloat
  aci : PyFloat
  comment : Str
  operationId : Str
  commission : PyFloat
deriving DecidableEq

/-- The serialized form `OperationDTO.to_dict` produces: a dictionary
whose `date` value is an ISO-8601 string for a datetime and Python
`None` (modelled as `Option.none`) otherwise; `_sort_key` is popped. -/
structure OperationRecord where
  date : Option Str
  operationType : Str
  paymentSum : PyFloat
  currency : Str
  ticker : Str
  isin : Str
  regNumber : Str
  price : PyFloat
  quantity : PyFloat
  aci : PyFloat
  comment : Str
  operationId : Str
  commission : PyFloat
deriving DecidableEq

/-- Model of `OperationDTO.to_dict`. -/
def OperationDTO.toDict (op : OperationDTO) : OperationRecord :=
  { date := op.date.map isoformatDT
    operationType := op.operationType
    paymentSum := op.paymentSum
    currency := op.currency
    ticker := op.ticker
    isin := op.isin
    regNumber := op.regNumber
    price := op.price
    quantity := op.quantity
    aci := op.aci
    comment := op.comment
    operationId := op.operationId
    commission := op.commission }

/-! Deduplication (`full_statement_xls._op_key` / `_dedupe_ops`).  The
Python key is the string `"id:<oid>"` or
`"auto:<date>|<kind>|<sum>|<ticker>|<isin>"`; it is modelled as a tagged
tuple, whose equality coincides with equality of those strings for the
field values that occur (none of them contains the separator). -/

inductive OpKey where
  | byId (oid : Str)
  | auto (datePart : Str) (opType : Str) (sumPart : PyFloat) (ticker : Str)
      (isin : Str)
deriving DecidableEq

/-- Model of `_op_key`.  `payment_sum` is always a float here (no parser
produces the string form the source tolerates), so `float(op.payment_sum)`
is the value itself; a missing date stringifies to "". -/
def opKey (op : OperationDTO) : OpKey :=
  let oid := pyStrip op.operationId
  if oid = [] then
    .auto (op.date.elim [] isoformatDT) op.operationType op.paymentSum
      op.ticker op.isin
  else .byId oid

def dedupeGo (seen : List OpKey) : List OperationDTO → List OperationDTO
  | [] => []
  | o :: rest =>
    if opKey o ∈ seen then dedupeGo seen rest
    else o :: dedupeGo (opKey o :: seen) rest

/-- Model of `_dedupe_ops`. -/
def dedupeOps (ops : List OperationDTO) : List OperationDTO × ℕ :=
  let d := dedupeGo [] ops
  (d, d.length)

def qAbs (q : ℚ) : ℚ := if q < 0 then -q else q

/-! The workbook boundary.  `pandas.read_excel` (the Raw Grid Provider,
an external collaborator per the spec) turns a sheet into a DataFrame:
with the default header the first sheet row becomes the column labels and
the remaining rows the data; with `header=None` all rows are data.  A
`Sheet` carries the raw sheet grid; Excel sheet names are unique. -/

structure Sheet where
  name : Str
  raw : Grid
deriving DecidableEq

abbrev Workbook := List Sheet

def sheetNames (wb : Workbook) : List Str := wb.map (fun s => s.name)

def gridOfSheet (wb : Workbook) (n : Str) : Grid :=
  match wb.find? (fun s => s.name = n) with
  | some s => s.raw
  | none => []

def maxRowLen (g : Grid) : ℕ := g.foldl (fun m r => max m r.length) 0

def dropNaRows (g : Grid) : Grid :=
  g.filter (fun r => r.any (fun c => ¬ cellIsNa c))

def keptColIdx (g : Grid) : List ℕ :=
  (List.range (maxRowLen g)).filter
    (fun j => g.any (fun r => ¬ cellIsNa (r.getD j .empty)))

/-- The shared `_preprocess_dataframe`: drop all-NaN rows, then all-NaN
columns, then reset the index. -/
def preprocessGrid (g : Grid) : Grid :=
  let g1 := dropNaRows g
  g1.map (fun r => (keptColIdx g1).map (fun j => r.getD j .empty))

def kwAny (h : Str) (kws : List Str) : Bool :=
  kws.any (fun k => containsSub h k)

/-! The cash-movements parser (`xls_fin_ops.py`). -/

def finSheetKeywords : List Str :=
  [ lit "движение", lit "дс", lit "движение дс", lit "Движение ДС" ]

/-- Model of `_find_financial_sheet` plus the surrounding `parse` guard:
keyword scan over lowercased names, exact fallback list, first sheet,
and the `ValueError` when the workbook has no sheets. -/
def finFindSheet (names : List Str) : Except Str Str :=
  match names.find?
      (fun n => finSheetKeywords.any (fun k => containsSub (lowerStr n) k)) with
  | some n => .ok n
  | none =>
    let fallback :=
      [ lit "Движение ДС", lit "Финансовые операции",
        lit "Движения денежных средств", lit "Движение денежных средств" ]
    match fallback.find? (fun f => names.contains f) with
    | some n => .ok n
    | none =>
      match names with
      | n :: _ => .ok n
      | [] => .error (lit "Не найдено ни одного листа в файле Excel")

/-- Model of `XlsFinancialOperationsParser._find_header_row`: scan the
first 20 rows of the frame, lowercase every cell, and require one cell
containing the literal "Дата создания заявки" (note the capitals: the row
was just lowercased) together with one of the order/contract/content
markers. -/
def finFindHeaderRow (g : Grid) : Option ℕ :=
  (List.range (min 20 g.length)).find? (fun i =>
    let row := (g.getD i []).map (fun c => lowerStr (cellStr c))
    (row.any (fun v => containsSub v (lit "Дата создания заявки"))) &&
      (row.any (fun v =>
        containsSub v (lit "номер заявки") ||
          containsSub v (lit "номер договора") ||
          containsSub v (lit "содержание"))))

structure FinCols where
  date : Option ℕ
  time : Option ℕ
  operationType : Option ℕ
  comment : Option ℕ
  amount : Option ℕ
deriving DecidableEq

/-- Header-keyword pass of `_detect_columns` (dict order date, time,
operation_type, comment; "amount" is skipped there; first match per field
wins and a column may serve several fields). -/
def finHeaderKw (headers : List Str) : FinCols :=
  headers.enum.foldl
    (fun cols p =>
      let idx := p.1
      let h := p.2
      let cols :=
        if cols.date = none && kwAny h [ lit "дата" ] then
          { cols with date := some idx } else cols
      let cols :=
        if cols.time = none && kwAny h [ lit "время" ] then
          { cols with time := some idx } else cols
      let cols :=
        if cols.operationType = none &&
            kwAny h [ lit "наименование операции", lit "операция",
              lit "тип операции", lit "вид операции", lit "содержание" ] then
          { cols with operationType := some idx } else cols
      let cols :=
        if cols.comment = none && kwAny h [ lit "комментарий" ] then
          { cols with comment := some idx } else cols
      cols)
    ⟨none, none, none, none, none⟩

/-- Model of `_is_numeric_value`: numbers pass, text passes when its
digit/dot/dash/comma skeleton parses as a float after dash normalization. -/
def isNumericValue : Cell → Bool
  | .empty => false
  | .num _ => true
  | .dt _ => false
  | .s v =>
    let v2 := v.map (fun c =>
      if decide (c.toNat = 0x2013 ∨ c.toNat = 0x2212) then '-' else c)
    let cleaned := v2.filter (fun c =>
      isDigitCh c || decide (c = '.' ∨ c = '-' ∨ c = ','))
    (pyFloatParse (replaceChar ',' '.' cleaned)).isSome

/-- Model of `_column_has_numeric_data`: at least two numeric cells among
the five rows after the header row. -/
def finColumnHasNumericData (g : Grid) (hr col : ℕ) : Bool :=
  decide (2 ≤ (List.range' (hr + 1) (min (hr + 6) g.length - (hr + 1))).countP
    (fun i =>
      let v := (g.getD i []).getD col .empty
      ¬ cellIsNa v && isNumericValue v))

/-- Model of `_find_amount_column`: per column, candidate labels from the
sub-header row (stripped, uppercased, non-"NAN") and the header row; per
candidate first an exact then a substring match against the currency
dictionary, both requiring numeric data below; default column 4, RUB. -/
def finFindAmountColumn (g : Grid) (hr : ℕ) (headers : List Str) : ℕ × Str :=
  let subheaders : List Str :=
    if hr + 1 < g.length then
      (g.getD (hr + 1) []).map (fun c => upperStr (pyStrip (cellStr c)))
    else []
  let result := (List.range headers.length).findSome? (fun col =>
    let numData := finColumnHasNumericData g hr col
    let sub := subheaders.getD col []
    let head := headers.getD col []
    let cands : List Str :=
      (if ¬ subheaders = [] ∧ col < subheaders.length ∧ ¬ pyStrip sub = [] ∧
          ¬ sub = lit "NAN" then [ upperStr (pyStrip sub) ] else []) ++
      (if col < headers.length ∧ ¬ pyStrip head = [] then
        [ upperStr (pyStrip head) ] else [])
    cands.findSome? (fun cand =>
      match currencyDictList.findSome? (fun kv =>
          if upperStr kv.1 = cand ∧ numData then some kv.2 else none) with
      | some code => some (col, code)
      | none =>
        (currencyDictList.findSome? (fun kv =>
          if containsSub cand (upperStr kv.1) ∧ numData then
            some (col, kv.2)
          else none)).map (fun ccode => (col, ccode.2))))
  result.getD (4, lit "RUB")

/-- Model of `_detect_columns`: raises (returns `.error`) when no header
row is found, otherwise maps the keyword columns, the amount column and
the fixed fallback positions for missing required fields ("amount" is
always assigned by `_find_amount_column`, so its fallback is dead). -/
def finDetectColumns (g : Grid) : Except Str (FinCols × Str) :=
  match finFindHeaderRow g with
  | none => .error (lit "Не удалось найти строку с заголовками")
  | some hr =>
    let headers := (g.getD hr []).map (fun c => lowerStr (cellStr c))
    let cols0 := finHeaderKw headers
    let ac := finFindAmountColumn g hr headers
    let cols1 := { cols0 with amount := some ac.1 }
    let cols2 :=
      if cols1.date = none ∧ 0 < headers.length then
        { cols1 with date := some 0 } else cols1
    let cols3 :=
      if cols2.operationType = none ∧ 2 < headers.length then
        { cols2 with operationType := some 2 } else cols2
    let cols4 :=
      if cols3.comment = none ∧ 3 < headers.length then
        { cols3 with comment := some 3 } else cols3
    .ok (cols4, ac.2)

/-- The shared `_extract_field`: "" for an unmapped field, an
out-of-range column or a NaN cell, else the stripped text of the cell. -/
def extractFieldAt (row : Row) (idx : Option ℕ) : Str :=
  match idx with
  | none => []
  | some i =>
    if i < row.length then
      let c := row.getD i .empty
      if cellIsNa c then [] else pyStrip (cellStr c)
    else []

/-- Dot-grouping detector of `_extract_amount`: an occurrence of 1-3
digits, one or more groups of (separator, 3 digits), a comma and a digit. -/
def groupsThenAux (sep : Char) : Str → Bool
  | c :: d1 :: d2 :: d3 :: rest =>
    c = sep && isDigitCh d1 && isDigitCh d2 && isDigitCh d3 &&
      ((match rest with
        | ',' :: d :: _ => isDigitCh d
        | _ => false) ||
        groupsThenAux sep rest)
  | _ => false

def matchGroupingAt (sep : Char) : Str → Bool
  | [] => false
  | d1 :: rest =>
    isDigitCh d1 &&
      (groupsThenAux sep rest ||
        (match rest with
         | d2 :: rest2 =>
           isDigitCh d2 &&
             (groupsThenAux sep rest2 ||
               (match rest2 with
                | d3 :: rest3 => isDigitCh d3 && groupsThenAux sep rest3
                | [] => false))
         | [] => false))

def searchGrouping (sep : Char) : Str → Bool
  | [] => false
  | c :: rest => matchGroupingAt sep (c :: rest) || searchGrouping sep rest

/-- Model of `_extract_amount`: `none` for a missing mapping, an
out-of-range column, a NaN or blank cell or unparsable text; numeric
cells pass through; text is reduced to its digit/dot/dash/comma skeleton,
de-grouped (dot-grouping, the dead space-grouping branch, or a single
decimal comma) and parsed.  The skeleton contains only digits, dots,
dashes and commas, so the parse cannot produce an infinity or NaN; float
overflow above 1e308 (an uncaught `OverflowError` in the source) is
outside the model. -/
def finExtractAmount (row : Row) (cols : FinCols) : Option ℚ :=
  match cols.amount with
  | none => none
  | some i =>
    if i < row.length then
      let c := row.getD i .empty
      if cellIsNa c ∨ pyStrip (cellStr c) = [] then none
      else
        match c with
        | .num q => some q
        | c =>
          let s0 := pyStrip (cellStr c)
          let s1 := s0.map (fun ch =>
            if decide (ch.toNat = 0x2013 ∨ ch.toNat = 0x2212) then '-' else ch)
          let s2 := s1.filter (fun ch =>
            isDigitCh ch || decide (ch = '.' ∨ ch = '-' ∨ ch = ','))
          let s3 :=
            if searchGrouping '.' s2 then
              replaceChar ',' '.' (removeChar '.' s2)
            else if searchGrouping ' ' s2 then
              replaceChar ',' '.' (removeChar ' ' s2)
            else if s2.count ',' = 1 then replaceChar ',' '.' s2
            else s2
          match pyFloatParse s3 with
          | some (.finite q) => some q
          | _ => none
    else none

/-- Model of `_extract_date_with_inheritance`. -/
def finExtractDate (row : Row) (cols : FinCols)
    (lastDate : Option PDateTime) : Option PDateTime :=
  match cols.date with
  | none => lastDate
  | some i =>
    let c := row.getD i .empty
    if cellIsNa c ∨ pyStrip (cellStr c) = [] then lastDate
    else
      match c with
      | .dt d => some d
      | c => parseDatetimeFromComponents (cellStr c) none

/-- Model of `_is_total_row`. -/
def finIsTotalRow (operType commentText : Str) : Bool :=
  let indicators := [ lit "итого", lit "итог:", lit "итого:", lit "баланс" ]
  indicators.any (fun p => containsSub (lowerStr commentText) p) ||
    indicators.any (fun p => containsSub (lowerStr operType) p)

/-- Model of `_should_skip` (the amount is the Decimal the caller built,
never `None` there). -/
def finShouldSkip (operType commentText : Str) (amount : ℚ)
    (labelSource : Str) : Bool :=
  (decide (labelSource = []) && decide (amount = 0)) ||
    finIsTotalRow operType commentText ||
    shouldSkipOperation labelSource

/-- Model of `_create_operation_dto` (the sign is dropped with `abs`). -/
def finCreateOperationDto (date : PDateTime) (opType currency : Str)
    (paymentSum : ℚ) (commentText isin regNumber : Str) : OperationDTO :=
  { date := some date
    operationType := opType
    paymentSum := .finite (qAbs paymentSum)
    currency := if currency = [] then lit "RUB" else currency
    ticker := []
    isin := isin
    regNumber := regNumber
    price := .finite 0
    quantity := .finite 0
    aci := .finite 0
    comment := commentText
    operationId := []
    commission := .finite 0 }

/-- Model of `_process_row_with_date_inheritance`: the produced operation
(or `none` with the skip accounted by the caller) and the date to carry
forward. -/
def finOperType (row : Row) (cols : FinCols) : Str :=
  extractFieldAt row cols.operationType

def finCommentText (row : Row) (cols : FinCols) : Str :=
  extractFieldAt row cols.comment

def finAmount (row : Row) (cols : FinCols) : ℚ :=
  (finExtractAmount row cols).getD 0

/-- The row's label source: the trimmed operation label, else the trimmed
comment. -/
def finLabelSource (row : Row) (cols : FinCols) : Str :=
  if pyStrip (finOperType row cols) = [] then pyStrip (finCommentText row cols)
  else pyStrip (finOperType row cols)

/-- The operation built by the success path of the row processor. -/
def finBuildOp (row : Row) (cols : FinCols) (curr : Str) (cd : PDateTime) :
    OperationDTO :=
  finCreateOperationDto cd
    (determineOperationType (finOperType row cols) (finCommentText row cols)
      (finAmount row cols))
    curr (finAmount row cols) (finCommentText row cols)
    (extractIsin (finCommentText row cols))
    (extractRegNumber (finCommentText row cols))

def finProcessRow (row : Row) (cols : FinCols) (curr : Str)
    (lastDate : Option PDateTime) :
    Option OperationDTO × Option PDateTime :=
  match finExtractDate row cols lastDate with
  | none => (none, none)
  | some cd =>
    if finShouldSkip (finOperType row cols) (finCommentText row cols)
        (finAmount row cols) (finLabelSource row cols) then
      (none, some cd)
    else if determineOperationType (finOperType row cols)
        (finCommentText row cols) (finAmount row cols) = lit "_skip_" then
      (none, some cd)
    else (some (finBuildOp row cols curr cd), some cd)

/-- Row loop of `_process_rows` over the rows after the header (operation
list, parsed count, skipped count). -/
def finProcessList (cols : FinCols) (curr : Str) :
    List Row → Option PDateTime → List OperationDTO × ℕ × ℕ
  | [], _ => ([], 0, 0)
  | row :: rest, last =>
    let rc := finProcessRow row cols curr last
    let last2 := if rc.2.isSome then rc.2 else last
    let acc := finProcessList cols curr rest last2
    match rc.1 with
    | some op => (op :: acc.1, acc.2.1 + 1, acc.2.2)
    | none => (acc.1, acc.2.1, acc.2.2 + 1)

/-- Model of `_process_rows` (operations, total rows, parsed, skipped). -/
def finProcessRows (g : Grid) (cols : FinCols) (curr : Str) :
    List OperationDTO × ℕ × ℕ × ℕ :=
  let start :=
    match finFindHeaderRow g with
    | some i => i + 1
    | none => 0
  let rows := g.drop start
  let res := finProcessList cols curr rows none
  (res.1, rows.length, res.2.1, res.2.2)

/-- The statistics of the cash-movements parser, restricted to the fields
the claims observe (`total_rows`, `parsed`, `skipped`, the detected sheet,
the amount currency and the error slot; the aggregate sums and example
comments of the source are not inspected by any claim). -/
structure FinStats where
  totalRows : ℕ
  parsed : ℕ
  skipped : ℕ
  detectedSheet : Str
  currencyForAmount : Str
  error : Option Str
deriving DecidableEq

def finStatsInit : FinStats :=
  { totalRows := 0, parsed := 0, skipped := 0, detectedSheet := []
    currencyForAmount := lit "RUB", error := none }

/-- Model of `XlsFinancialOperationsParser.parse`: the whole pipeline runs
under one `try`, and any failure (no sheets, no header row) is caught and
returned as an empty operation list with the error recorded in the
statistics.  The engine detection and the spreadsheet reader live outside
the model (their failures end in the same `except`). -/
def finDf (wb : Workbook) (sn : Str) : Grid :=
  preprocessGrid ((gridOfSheet wb sn).drop 1)

def finParseOk (wb : Workbook) (sn : Str) : List OperationDTO × FinStats :=
  match finDetectColumns (finDf wb sn) with
  | .error e =>
    ([], { finStatsInit with detectedSheet := sn, error := some e })
  | .ok colsCurr =>
    let res := finProcessRows (finDf wb sn) colsCurr.1 colsCurr.2
    (res.1,
      { totalRows := res.2.1, parsed := res.2.2.1, skipped := res.2.2.2
        detectedSheet := sn, currencyForAmount := colsCurr.2, error := none })

def finParse (wb : Workbook) : List OperationDTO × FinStats :=
  match finFindSheet (sheetNames wb) with
  | .error e => ([], { finStatsInit with error := some e })
  | .ok sn => finParseOk wb sn

/-! The trades parser (`xls_trades.py`). -/

/-- Model of `_find_trades_sheet`. -/
def tradesFindSheet (names : List Str) : Except Str Str :=
  match names.find? (fun n => containsSub (lowerStr n) (lit "сделки")) with
  | some n => .ok n
  | none =>
    let fallback := [ lit "Завершенные сделки", lit "Сделки", lit "Trades" ]
    match fallback.find? (fun f => names.contains f) with
    | some n => .ok n
    | none =>
      match names with
      | n :: _ => .ok n
      | [] => .error (lit "Не найдено ни одного листа в файле Excel")

/-- The strict header test of the trades `_find_header_row` on one
lowercased row: a trade-id, a conclusion-date and a quantity marker. -/
def tradesHeaderStrictRow (r : Row) : Bool :=
  let row := r.map (fun c => lowerStr (cellStr c))
  (row.any (fun v => containsSub v (lit "№ сделки") ||
      containsSub v (lit "номер сделки"))) &&
    (row.any (fun v => containsSub v (lit "дата заключения") ||
      containsSub v (lit "заключен"))) &&
    (row.any (fun v => containsSub v (lit "количество")))

/-- The loose header test: any cell containing "isin". -/
def tradesHeaderLooseRow (r : Row) : Bool :=
  (r.map (fun c => lowerStr (cellStr c))).any
    (fun v => containsSub v (lit "isin"))

/-- Model of `XlsTradesParser._find_header_row`: the strict pass over the
first 20 rows, then the loose pass. -/
def tradesFindHeaderRow (g : Grid) : Option ℕ :=
  match (List.range (min 20 g.length)).find?
      (fun i => tradesHeaderStrictRow (g.getD i [])) with
  | some i => some i
  | none =>
    (List.range (min 20 g.length)).find?
      (fun i => tradesHeaderLooseRow (g.getD i []))

structure TradeCols where
  tradeId : Option ℕ
  dateConclusion : Option ℕ
  dateSettlement : Option ℕ
  place : Option ℕ
  isin : Option ℕ
  assetName : Option ℕ
  quantity : Option ℕ
  price : Option ℕ
  amount : Option ℕ
  nkd : Option ℕ
  currency : Option ℕ
  commission : Option ℕ
  commissionCurrency : Option ℕ
  comment : Option ℕ
deriving DecidableEq

def tradeColsEmpty : TradeCols :=
  ⟨none, none, none, none, none, none, none, none, none, none, none, none,
    none, none⟩

/-- Header-keyword pass of the trades `_detect_columns` (dict order,
first match per field, a column may serve several fields). -/
def tradesHeaderKw (headers : List Str) : TradeCols :=
  headers.enum.foldl
    (fun cols p =>
      let idx := p.1
      let h := p.2
      let cols :=
        if cols.tradeId = none &&
            kwAny h [ lit "№ сделки", lit "номер сделки", lit "id сделки" ] then
          { cols with tradeId := some idx } else cols
      let cols :=
        if cols.dateConclusion = none &&
            kwAny h [ lit "дата заключения", lit "заключен" ] then
          { cols with dateConclusion := some idx } else cols
      let cols :=
        if cols.dateSettlement = none &&
            kwAny h [ lit "дата расчетов", lit "расчетов" ] then
          { cols with dateSettlement := some idx } else cols
      let cols :=
        if cols.place = none &&
            kwAny h [ lit "место заключения", lit "место" ] then
          { cols with place := some idx } else cols
      let cols :=
        if cols.isin = none &&
            kwAny h [ lit "isin", lit "рег.код", lit "код" ] then
          { cols with isin := some idx } else cols
      let cols :=
        if cols.assetName = none &&
            kwAny h [ lit "актив", lit "наименование" ] then
          { cols with assetName := some idx } else cols
      let cols :=
        if cols.quantity = none &&
            kwAny h [ lit "количество", lit "шт./грамм", lit "объем" ] then
          { cols with quantity := some idx } else cols
      let cols :=
        if cols.price = none && kwAny h [ lit "цена" ] then
          { cols with price := some idx } else cols
      let cols :=
        if cols.amount = none &&
            kwAny h [ lit "сумма сделки", lit "стоимость" ] then
          { cols with amount := some idx } else cols
      let cols :=
        if cols.nkd = none && kwAny h [ lit "нкд", lit "в т.ч. нкд" ] then
          { cols with nkd := some idx } else cols
      let cols :=
        if cols.currency = none &&
            kwAny h [ lit "валюта расчетов", lit "валюта" ] then
          { cols with currency := some idx } else cols
      let cols :=
        if cols.commission = none &&
            kwAny h [ lit "комиссия банка", lit "комиссия" ] then
          { cols with commission := some idx } else cols
      let cols :=
        if cols.commissionCurrency = none &&
            kwAny h [ lit "валюта комиссии" ] then
          { cols with commissionCurrency := some idx } else cols
      let cols :=
        if cols.comment = none &&
            kwAny h [ lit "коммент", lit "примечание" ] then
          { cols with comment := some idx } else cols
      cols)
    tradeColsEmpty

/-- Fixed fallback positions for missing required trade columns (the
"commission" entry of the source's fallback table is dead: commission is
not a required field). -/
def tradesApplyFallback (headers : List Str) (cols : TradeCols) : TradeCols :=
  let n := headers.length
  let cols :=
    if cols.dateConclusion = none ∧ 2 < n then
      { cols with dateConclusion := some 2 } else cols
  let cols := if cols.isin = none ∧ 4 < n then { cols with isin := some 4 } else cols
  let cols :=
    if cols.assetName = none ∧ 5 < n then { cols with assetName := some 5 }
    else cols
  let cols :=
    if cols.quantity = none ∧ 7 < n then { cols with quantity := some 7 }
    else cols
  let cols := if cols.price = none ∧ 8 < n then { cols with price := some 8 } else cols
  let cols :=
    if cols.amount = none ∧ 9 < n then { cols with amount := some 9 } else cols
  let cols :=
    if cols.currency = none ∧ 10 < n then { cols with currency := some 10 }
    else cols
  cols

/-- Model of the trades `_detect_columns`. -/
def tradesDetectColumns (g : Grid) : Except Str TradeCols :=
  match tradesFindHeaderRow g with
  | none => .error (lit "Не удалось найти строку с заголовками")
  | some hr =>
    let headers := (g.getD hr []).map (fun c => lowerStr (cellStr c))
    .ok (tradesApplyFallback headers (tradesHeaderKw headers))

def chAt (s : Str) (i : ℕ) (c : Char) : Bool := charAt s i = some c

def digitsRunAt (s : Str) (i n : ℕ) : Bool :=
  decide ((sliceOf s i n).length = n) && (sliceOf s i n).all isDigitCh

def numAt (s : Str) (i n : ℕ) : ℕ :=
  (sliceOf s i n).foldl (fun acc c => 10 * acc + digitVal c) 0

/-- `dd.mm.yyyy` at offset `p`. -/
def dmyAt (s : Str) (p : ℕ) : Option (ℕ × ℕ × ℕ) :=
  if digitsRunAt s p 2 && chAt s (p + 2) '.' && digitsRunAt s (p + 3) 2 &&
      chAt s (p + 5) '.' && digitsRunAt s (p + 6) 4 then
    some (numAt s p 2, numAt s (p + 3) 2, numAt s (p + 6) 4)
  else none

def searchAt {α : Type} (n : ℕ) (f : ℕ → Option α) : Option α :=
  (List.range n).findSome? f

/-- `dd.mm.yyyy\s+hh:mm:ss` search with the 6-group pattern. -/
def tradesPat1 (s : Str) : Option (ℕ × ℕ × ℕ × ℕ × ℕ × ℕ) :=
  searchAt (s.length + 1) (fun p => do
    let (d, m, y) ← dmyAt s p
    let w := runLenAt isPyWs s (p + 10)
    if w = 0 then none
    else
      let q := p + 10 + w
      if digitsRunAt s q 2 && chAt s (q + 2) ':' && digitsRunAt s (q + 3) 2 &&
          chAt s (q + 5) ':' && digitsRunAt s (q + 6) 2 then
        some (d, m, y, numAt s q 2, numAt s (q + 3) 2, numAt s (q + 6) 2)
      else none)

/-- `dd.mm.yyyy\s+hh:mm` search with the 5-group pattern. -/
def tradesPat2 (s : Str) : Option (ℕ × ℕ × ℕ × ℕ × ℕ) :=
  searchAt (s.length + 1) (fun p => do
    let (d, m, y) ← dmyAt s p
    let w := runLenAt isPyWs s (p + 10)
    if w = 0 then none
    else
      let q := p + 10 + w
      if digitsRunAt s q 2 && chAt s (q + 2) ':' && digitsRunAt s (q + 3) 2 then
        some (d, m, y, numAt s q 2, numAt s (q + 3) 2)
      else none)

/-- `dd.mm.yyyy` search with the 3-group pattern. -/
def tradesPat3 (s : Str) : Option (ℕ × ℕ × ℕ) :=
  searchAt (s.length + 1) (fun p => dmyAt s p)

def parseHMcolon (s : Str) : Option (ℕ × ℕ) :=
  match splitOnChar ':' s with
  | [hs, ms] => do
    let h ← parseDigitsLen 1 2 hs
    let m ← parseDigitsLen 1 2 ms
    pure (h, m)
  | _ => none

/-- Python `datetime.strptime(s, "%d.%m.%Y %H:%M:%S")`. -/
def strptimeDmyHms (s : Str) : Option PDateTime :=
  match splitWs s with
  | [dtok, ttok] => do
    let (y, m, d) ← parseDMYdots dtok
    let (h, mi, sec) ← parseHMScolon ttok
    mkDT y m d h mi sec
  | _ => none

/-- Python `datetime.strptime(s, "%d.%m.%Y %H:%M")`. -/
def strptimeDmyHm (s : Str) : Option PDateTime :=
  match splitWs s with
  | [dtok, ttok] => do
    let (y, m, d) ← parseDMYdots dtok
    let (h, mi) ← parseHMcolon ttok
    mkDT y m d h mi 0
  | _ => none

/-- Model of `XlsTradesParser._parse_datetime`: the three regex searches
(first match, validated by the `datetime` constructor, falling through on
a `ValueError`), then the strptime format list. -/
def tradesParseDatetime (dateStr : Str) : Option PDateTime :=
  if dateStr = [] then none
  else
    let ds := pyStrip dateStr
    let viaPat1 : Option PDateTime :=
      match tradesPat1 ds with
      | some (d, m, y, h, mi, sec) => mkDT y m d h mi sec
      | none => none
    match viaPat1 with
    | some dt => some dt
    | none =>
      let viaPat2 : Option PDateTime :=
        match tradesPat2 ds with
        | some (d, m, y, h, mi) => mkDT y m d h mi 0
        | none => none
      match viaPat2 with
      | some dt => some dt
      | none =>
        let viaPat3 : Option PDateTime :=
          match tradesPat3 ds with
          | some (d, m, y) => mkDT y m d 0 0 0
          | none => none
        match viaPat3 with
        | some dt => some dt
        | none =>
          match strptimeDmyHms ds with
          | some dt => some dt
          | none =>
            match strptimeDmyHm ds with
            | some dt => some dt
            | none =>
              match (parseDMYdots ds).bind
                  (fun ymd => mkDT ymd.1 ymd.2.1 ymd.2.2 0 0 0) with
              | some dt => some dt
              | none =>
                match strptimeYmdHms ds with
                | some dt => some dt
                | none => strptimeYmd ds

def isUpperLatin (c : Char) : Bool := decide (65 ≤ c.toNat ∧ c.toNat ≤ 90)

def isUpperCyr (c : Char) : Bool := decide (0x410 ≤ c.toNat ∧ c.toNat ≤ 0x42F)

def tickerCoreOk (a : Str) : Bool :=
  decide (1 ≤ a.length ∧ a.length ≤ 6) &&
    a.all (fun c => isUpperLatin c || isUpperCyr c || isDigitCh c)

def tickerExtOk (b : Str) : Bool :=
  decide (1 ≤ b.length ∧ b.length ≤ 4) && b.all isUpperLatin

/-- The anchored ticker pattern `^[A-ZА-Я0-9]{1,6}(\.[A-Z]{1,4})?$`. -/
def tickerPat (w : Str) : Bool :=
  match splitOnChar '.' w with
  | [a] => tickerCoreOk a
  | [a, b] => tickerCoreOk a && tickerExtOk b
  | _ => false

/-- The parenthesized-code search of `_extract_ticker_from_name`: the
content of a group runs to the first closing parenthesis after each
opening one (its character class admits neither parenthesis). -/
def parenTicker : Str → Option Str
  | [] => none
  | '(' :: rest =>
    let content := rest.takeWhile (fun c => ¬ c = ')')
    if content.length < rest.length ∧ tickerPat content then some content
    else parenTicker rest
  | _ :: rest => parenTicker rest

/-- Model of `XlsTradesParser._extract_ticker_from_name`. -/
def tradesExtractTicker (assetName : Str) : Str :=
  if assetName = [] then []
  else
    let cleanName := pyStrip (assetName.filter (fun c =>
      isWordChar c || isPyWs c || decide (c = '.' ∨ c = '-')))
    let parts := splitWs cleanName
    match parts with
    | first :: _ =>
      if tickerPat first then first
      else (parenTicker assetName).getD []
    | [] => (parenTicker assetName).getD []

/-- Model of `XlsTradesParser._extract_first_trade_id`. -/
def extractFirstTradeId (t : Str) : Str :=
  if t = [] then []
  else
    (((splitOnChar '\n' (t.map (fun c => if c = '\r' then '\n' else c))).map
      pyStrip).filter (fun p => ¬ p = [])).headD []

inductive TradeRowOut where
  | produced (op : OperationDTO)
  | skipNoDate
  | skipNoQty
deriving DecidableEq

def tradesQtyF (row : Row) (cols : TradeCols) : PyFloat :=
  toFloatSafeStr (extractFieldAt row cols.quantity)

/-- The currency cell with the RUR/РУБ/РУБЛЬ aliases canonicalized. -/
def tradesCurrency (row : Row) (cols : TradeCols) : Str :=
  if upperStr (extractFieldAt row cols.currency) = lit "RUR" ∨
      upperStr (extractFieldAt row cols.currency) = lit "РУБ" ∨
      upperStr (extractFieldAt row cols.currency) = lit "РУБЛЬ" then lit "RUB"
  else extractFieldAt row cols.currency

/-- The operation built by the success path of the trades row processor.
The ticker computed from the asset name by `_extract_ticker_from_name` is
discarded: the source passes the literal `ticker=""` to the constructor. -/
def tradesBuildOp (row : Row) (cols : TradeCols) (tradeDate : PDateTime) :
    OperationDTO :=
  let tickerComputed := tradesExtractTicker (extractFieldAt row cols.assetName)
  let _ := tickerComputed
  { date := some tradeDate
    operationType := if (tradesQtyF row cols).gtZero then lit "buy" else lit "sale"
    paymentSum := (toFloatSafeStr (extractFieldAt row cols.amount)).pyAbs
    currency := tradesCurrency row cols
    ticker := []
    isin := extractFieldAt row cols.isin
    regNumber := []
    price := toFloatSafeStr (extractFieldAt row cols.price)
    quantity := (tradesQtyF row cols).pyAbs
    aci := toFloatSafeStr (extractFieldAt row cols.nkd)
    comment := extractFieldAt row cols.comment
    operationId := extractFirstTradeId (extractFieldAt row cols.tradeId)
    commission := toFloatSafeStr (extractFieldAt row cols.commission) }

/-- Model of `XlsTradesParser._process_row`.  The inner `except` (counter
`skipped_invalid`) is unreachable in the model: no modelled step raises. -/
def tradesProcessRowOut (row : Row) (cols : TradeCols) : TradeRowOut :=
  match tradesParseDatetime (extractFieldAt row cols.dateConclusion) with
  | none => .skipNoDate
  | some tradeDate =>
    if (tradesQtyF row cols).eqZero then .skipNoQty
    else .produced (tradesBuildOp row cols tradeDate)

def tradesProcessRow (row : Row) (cols : TradeCols) : Option OperationDTO :=
  match tradesProcessRowOut row cols with
  | .produced op => some op
  | _ => none

structure TradeStats where
  totalRows : ℕ
  parsed : ℕ
  skippedNoDate : ℕ
  skippedNoQty : ℕ
  skippedInvalid : ℕ
  totalCommission : PyFloat
  detectedSheet : Str
  error : Option Str
deriving DecidableEq

def tradesStatsInit : TradeStats :=
  { totalRows := 0, parsed := 0, skippedNoDate := 0, skippedNoQty := 0
    skippedInvalid := 0, totalCommission := .finite 0, detectedSheet := []
    error := none }

def tradesStartRow (g : Grid) : ℕ :=
  match tradesFindHeaderRow g with
  | some i => i + 1
  | none => 0

/-- The row indices `range(start_row, min(len(df), start_row + 5000))` the
trades `_process_rows` iterates. -/
def tradesWindow (g : Grid) : List ℕ :=
  let start := tradesStartRow g
  List.range' start (min g.length (start + 5000) - start)

def tradesGo (g : Grid) (cols : TradeCols) :
    List ℕ → List OperationDTO → ℕ → ℕ → ℕ → PyFloat →
    List OperationDTO × ℕ × ℕ × ℕ × PyFloat
  | [], ops, p, nd, nq, com => (ops.reverse, p, nd, nq, com)
  | i :: rest, ops, p, nd, nq, com =>
    match tradesProcessRowOut (g.getD i []) cols with
    | .produced op =>
      tradesGo g cols rest (op :: ops) (p + 1) nd nq (com.pyAdd op.commission)
    | .skipNoDate => tradesGo g cols rest ops p (nd + 1) nq com
    | .skipNoQty => tradesGo g cols rest ops p nd (nq + 1) com

/-- Model of the trades `_process_rows` (at most 5000 rows after the
header are iterated; `total_rows` counts exactly the iterated rows). -/
def tradesProcessRows (g : Grid) (cols : TradeCols) :
    List OperationDTO × TradeStats :=
  let w := tradesWindow g
  let r := tradesGo g cols w [] 0 0 0 (.finite 0)
  (r.1,
    { totalRows := w.length, parsed := r.2.1, skippedNoDate := r.2.2.1
      skippedNoQty := r.2.2.2.1, skippedInvalid := 0
      totalCommission := r.2.2.2.2, detectedSheet := [], error := none })

/-- Model of `XlsTradesParser.parse` (same catch-all boundary as the
cash-movements parser). -/
def tradesDf (wb : Workbook) (sn : Str) : Grid :=
  preprocessGrid ((gridOfSheet wb sn).drop 1)

def tradesParseOk (wb : Workbook) (sn : Str) : List OperationDTO × TradeStats :=
  match tradesDetectColumns (tradesDf wb sn) with
  | .error e =>
    ([], { tradesStatsInit with detectedSheet := sn, error := some e })
  | .ok cols =>
    let r := tradesProcessRows (tradesDf wb sn) cols
    (r.1, { r.2 with detectedSheet := sn })

def tradesParse (wb : Workbook) : List OperationDTO × TradeStats :=
  match tradesFindSheet (sheetNames wb) with
  | .error e => ([], { tradesStatsInit with error := some e })
  | .ok sn => tradesParseOk wb sn

/-! The transfers parser (`xls_transfers.py`). -/

def transfersSheetKeywords : List Str :=
  [ lit "неторговые операции", lit "non-trade operations", lit "неторговые",
    lit "операции с ценными бумагами", lit "non trade operations",
    lit "неторговая операция", lit "non-trade operation", lit "конвертация" ]

/-- Model of `_find_transfers_sheet`. -/
def transfersFindSheet (names : List Str) : Except Str Str :=
  match names.find? (fun n =>
      transfersSheetKeywords.any (fun k => containsSub (lowerStr n) k)) with
  | some n => .ok n
  | none =>
    let exact := [ lit "Неторговые операции", lit "Конвертации",
      lit "Non-trade operations" ]
    match exact.find? (fun f => names.contains f) with
    | some n => .ok n
    | none =>
      match names.find? (fun n =>
          [ lit "неторг", lit "non-trade", lit "конверт", lit "transfer" ].any
            (fun k => containsSub (lowerStr n) k)) with
      | some n => .ok n
      | none =>
        match names with
        | n :: _ => .ok n
        | [] => .error (lit "Не найдено ни одного листа")

structure TransferCols where
  date : Option ℕ
  operationType : Option ℕ
  assetName : Option ℕ
  comment : Option ℕ
  quantity : Option ℕ
deriving DecidableEq

/-- An anchored prefix match of 1-2 digits, a separator, 1-2 digits, a
separator, `ylo`-`yhi` digits (the `_looks_like_date` patterns; `re.match`
anchors at the start only, trailing text is allowed). -/
def dateLikeAt (s : Str) (a b ylo yhi : ℕ) : Bool :=
  let sepOk : Char → Bool := fun c => decide (c = '.' ∨ c = '/' ∨ c = '-')
  (List.range a).any (fun da =>
    let d1 := a - da
    (List.range b).any (fun db =>
      let d2 := b - db
      (List.range (yhi - ylo + 1)).any (fun dy =>
        let d3 := yhi - dy
        ylo ≤ d3 && digitsRunAt s 0 d1 &&
          (charAt s d1).elim false sepOk && digitsRunAt s (d1 + 1) d2 &&
          (charAt s (d1 + 1 + d2)).elim false sepOk &&
          digitsRunAt s (d1 + 2 + d2) d3)))

/-- Model of `_looks_like_date`. -/
def looksLikeDate : Cell → Bool
  | .dt _ => true
  | .s v =>
    let t := pyStrip v
    dateLikeAt t 2 2 2 4 || dateLikeAt t 4 2 1 2
  | _ => false

/-- Model of `_looks_like_number` (a NaN cell is a float instance, so it
counts as a number, exactly as in the source). -/
def looksLikeNumber : Cell → Bool
  | .num _ => true
  | .empty => true
  | .dt _ => false
  | .s v =>
    let t := pyStrip v
    match t with
    | [] => false
    | _ =>
      let u := if t.headD ' ' = '-' then t.tail else t
      let ds := u.takeWhile isDigitCh
      let rest := u.drop ds.length
      ¬ ds = [] &&
        (rest = [] ||
          ((rest.headD ' ' = '.' || rest.headD ' ' = ',') &&
            rest.tail.all isDigitCh))

def gridWidth (g : Grid) : ℕ := maxRowLen g

/-- The header-anchored pass of `_find_columns_by_structure`: the first
cell (row-major, first 10 rows) whose text contains
"наименование операции". -/
def transfersFindAnchor (g : Grid) : Option (ℕ × ℕ) :=
  (List.range (min 10 g.length)).findSome? (fun i =>
    ((List.range (gridWidth g)).find? (fun col =>
      match (g.getD i []).getD col .empty with
      | .s v => containsSub (lowerStr v) (lit "наименование операции")
      | _ => false)).map (fun col => (i, col)))

/-- Model of `_find_columns_by_heuristics`. -/
def transfersHeuristics (g : Grid) : TransferCols :=
  let dateCol := (List.range (gridWidth g)).find? (fun col =>
    3 ≤ (List.range (min 10 g.length)).countP (fun i =>
      looksLikeDate ((g.getD i []).getD col .empty)))
  let opCol := (List.range (gridWidth g)).find? (fun col =>
    2 ≤ (List.range (min 10 g.length)).countP (fun i =>
      match (g.getD i []).getD col .empty with
      | .s v => containsSub (lowerStr v) (lit "перевод")
      | _ => false))
  let qtyCol := (List.range (gridWidth g)).find? (fun col =>
    ¬ (dateCol = some col ∨ opCol = some col) &&
      3 ≤ (List.range (min 10 g.length)).countP (fun i =>
        looksLikeNumber ((g.getD i []).getD col .empty)))
  { date := dateCol, operationType := opCol, assetName := none
    comment := none, quantity := qtyCol }

/-- Model of `_find_columns_by_structure` (the mapped operation-type
column is the anchor column plus 2; missing required date/quantity fall
back to fixed positions 1 and 11 without a length guard). -/
def transfersFindColumns (g : Grid) : TransferCols :=
  match transfersFindAnchor g with
  | none => transfersHeuristics g
  | some (hr, opCol) =>
    let hrow := g.getD hr []
    let isStrWith : Cell → List Str → Bool := fun c kws =>
      match c with
      | .s v => kws.any (fun k => containsSub (lowerStr v) k)
      | _ => false
    let dateCol := ((List.range opCol).reverse).find? (fun col =>
      isStrWith (hrow.getD col .empty) [ lit "дата" ])
    let assetCol := (List.range' (opCol + 1)
        (min (opCol + 5) hrow.length - (opCol + 1))).find? (fun col =>
      isStrWith (hrow.getD col .empty)
        [ lit "актив", lit "инструмент", lit "наименование" ])
    let commentCol := (List.range' (opCol + 2)
        (min (opCol + 6) hrow.length - (opCol + 2))).find? (fun col =>
      isStrWith (hrow.getD col .empty)
        [ lit "комментарий", lit "примечание", lit "основание" ])
    let qtyCol := (List.range' (opCol + 3)
        (min (opCol + 8) hrow.length - (opCol + 3))).find? (fun col =>
      isStrWith (hrow.getD col .empty)
        [ lit "зачисление", lit "списание", lit "количество", lit "кол-во" ])
    let cols : TransferCols :=
      { date := dateCol, operationType := some (opCol + 2)
        assetName := assetCol, comment := commentCol, quantity := qtyCol }
    let cols :=
      if cols.date = none then { cols with date := some 1 } else cols
    let cols :=
      if cols.quantity = none then { cols with quantity := some 11 } else cols
    cols

/-- Model of the transfers `_parse_datetime`: only the first whitespace
token of the comma/slash-normalized text is given to `strptime`, so the
formats carrying a time part can never match and the effective ladder is
`%d.%m.%Y`, `%Y-%m-%d`, `%d.%m.%y`. -/
def transfersParseDatetime : Cell → Option PDateTime
  | .empty => none
  | .dt d => some d
  | c =>
    let s := pyStrip (cellStr c)
    if s = [] then none
    else
      let sClean := replaceChar '/' '.' (replaceChar ',' '.' s)
      let tok := (splitWs sClean).headD []
      match (parseDMYdots tok).bind (fun v => mkDT v.1 v.2.1 v.2.2 0 0 0) with
      | some dt => some dt
      | none =>
        match (parseYMDdash tok).bind (fun v => mkDT v.1 v.2.1 v.2.2 0 0 0) with
        | some dt => some dt
        | none =>
          (parseDMYdots2 tok).bind (fun v => mkDT v.1 v.2.1 v.2.2 0 0 0)

/-- Model of `_is_conversion_operation`. -/
def isConversionOperation (operationType commentText : Str) : Bool :=
  containsSub (lowerStr (pyStrip operationType)) (lit "перевод") &&
    (containsSub (lowerStr (pyStrip commentText)) (lit "конвертация") ||
      containsSub (lowerStr (pyStrip commentText)) (lit "конверсия"))

inductive TransferRowOut where
  | produced (op : OperationDTO)
  | skipNoDate
  | skipNoQty
  | skipNotConversion
deriving DecidableEq

/-- Model of `XlsTransfersParser._process_row`.  The date and quantity
cells are taken raw (`row.iloc[...]`), so an empty quantity cell reaches
`to_float_safe` as the float NaN and survives the `qty == 0` guard; a
missing mapping passes Python `None`, which coerces to 0.0.  An
out-of-range column index would raise an `IndexError` counted as
`skipped_invalid`; the model reads NaN there instead — either way no
operation is produced. -/
def transfersDateCell (row : Row) (cols : TransferCols) : Cell :=
  match cols.date with
  | some i => row.getD i .empty
  | none => Cell.empty

def transfersQty (row : Row) (cols : TransferCols) : PyFloat :=
  match cols.quantity with
  | some i => toFloatSafeCell (row.getD i .empty)
  | none => .finite 0

/-- The operation built by the success path of the transfers row
processor. -/
def transfersBuildOp (row : Row) (cols : TransferCols) (tradeDate : PDateTime) :
    OperationDTO :=
  { date := some tradeDate
    operationType :=
      if (transfersQty row cols).gtZero then lit "asset_receive"
      else lit "asset_withdrawal"
    paymentSum := .finite 0
    currency := []
    ticker := []
    isin := extractIsinFromAttr (extractFieldAt row cols.assetName)
    regNumber := []
    price := .finite 0
    quantity := (transfersQty row cols).pyAbs
    aci := .finite 0
    comment := extractFieldAt row cols.comment
    operationId := []
    commission := .finite 0 }

def transfersProcessRowOut (row : Row) (cols : TransferCols) :
    TransferRowOut :=
  match transfersParseDatetime (transfersDateCell row cols) with
  | none => .skipNoDate
  | some tradeDate =>
    if (transfersQty row cols).eqZero then .skipNoQty
    else if ¬ isConversionOperation (extractFieldAt row cols.operationType)
        (extractFieldAt row cols.comment) then
      .skipNotConversion
    else .produced (transfersBuildOp row cols tradeDate)

def transfersProcessRow (row : Row) (cols : TransferCols) :
    Option OperationDTO :=
  match transfersProcessRowOut row cols with
  | .produced op => some op
  | _ => none

structure TransferStats where
  totalRows : ℕ
  parsed : ℕ
  skippedNoDate : ℕ
  skippedNoQty : ℕ
  skippedNotConversion : ℕ
  skippedInvalid : ℕ
  detectedSheet : Str
  error : Option Str
deriving DecidableEq

def transfersStatsInit : TransferStats :=
  { totalRows := 0, parsed := 0, skippedNoDate := 0, skippedNoQty := 0
    skippedNotConversion := 0, skippedInvalid := 0, detectedSheet := []
    error := none }

/-- Model of `_find_data_start_row` (it can only return a hit or 0, the
`-1` guard of the caller is dead). -/
def transfersDataStartRow (g : Grid) (cols : TransferCols) : ℕ :=
  match cols.date with
  | none => 0
  | some dc =>
    (((List.range (min 10 g.length)).find? (fun i =>
      looksLikeDate ((g.getD i []).getD dc .empty))).getD 0)

def transfersGo (g : Grid) (cols : TransferCols) :
    List ℕ → List OperationDTO → ℕ → ℕ → ℕ → ℕ → ℕ →
    List OperationDTO × ℕ × ℕ × ℕ × ℕ × ℕ
  | [], ops, tot, p, nd, nq, nc => (ops.reverse, tot, p, nd, nq, nc)
  | i :: rest, ops, tot, p, nd, nq, nc =>
    let row := g.getD i []
    if row.all cellIsNa then transfersGo g cols rest ops tot p nd nq nc
    else
      match transfersProcessRowOut row cols with
      | .produced op =>
        transfersGo g cols rest (op :: ops) (tot + 1) (p + 1) nd nq nc
      | .skipNoDate => transfersGo g cols rest ops (tot + 1) p (nd + 1) nq nc
      | .skipNoQty => transfersGo g cols rest ops (tot + 1) p nd (nq + 1) nc
      | .skipNotConversion =>
        transfersGo g cols rest ops (tot + 1) p nd nq (nc + 1)

/-- Model of the transfers `_process_rows`: rows from the data start row,
skipping all-NaN rows without counting them. -/
def transfersProcessRows (g : Grid) (cols : TransferCols) :
    List OperationDTO × TransferStats :=
  let start := transfersDataStartRow g cols
  let r := transfersGo g cols (List.range' start (g.length - start)) [] 0 0 0 0 0
  (r.1,
    { totalRows := r.2.1, parsed := r.2.2.1, skippedNoDate := r.2.2.2.1
      skippedNoQty := r.2.2.2.2.1, skippedNotConversion := r.2.2.2.2.2
      skippedInvalid := 0, detectedSheet := [], error := none })

/-- Model of `XlsTransfersParser.parse` (read with `header=None`: the
whole sheet grid is data). -/
def transfersParseOk (wb : Workbook) (sn : Str) :
    List OperationDTO × TransferStats :=
  let df := preprocessGrid (gridOfSheet wb sn)
  let r := transfersProcessRows df (transfersFindColumns df)
  (r.1, { r.2 with detectedSheet := sn })

def transfersParse (wb : Workbook) : List OperationDTO × TransferStats :=
  match transfersFindSheet (sheetNames wb) with
  | .error e => ([], { transfersStatsInit with error := some e })
  | .ok sn => transfersParseOk wb sn

/-! The orchestrator (`services/full_statement_xls.py`). -/

/-- Python string `<` (code-point lexicographic). -/
def strLt : Str → Str → Bool
  | [], [] => false
  | [], _ :: _ => true
  | _ :: _, [] => false
  | a :: as_, b :: bs =>
    if a.toNat < b.toNat then true
    else if b.toNat < a.toNat then false
    else strLt as_ bs

/-- Stable insertion into an already sorted list: an element goes before
the first entry that is not strictly below it (Python's stable sort). -/
def insertStable {α : Type} (lt : α → α → Bool) (x : α) :
    List α → List α
  | [] => [x]
  | y :: ys => if lt y x then y :: insertStable lt x ys else x :: y :: ys

def stableSortBy {α : Type} (lt : α → α → Bool) : List α → List α
  | [] => []
  | x :: xs => insertStable lt x (stableSortBy lt xs)

/-- Model of `_extract_account_ids`: distinct, sorted "Номер договора"
values from the cash-movement and trade sheets (the DataFrame columns are
the first raw sheet row; empty/NaN headers cannot match the label either
way). -/
def extractAccountIds (wb : Workbook) : List Str :=
  let vals := wb.foldl (fun acc s =>
    if containsSub (lowerStr s.name) (lit "движение дс") ||
        containsSub (lowerStr s.name) (lit "сделки") then
      let colsRow := s.raw.headD []
      let rows := s.raw.drop 1
      if rows = [] ∨ colsRow = [] then acc
      else
        let headers := colsRow.map (fun c => lowerStr (pyStrip (cellStr c)))
        let colIdx : Option ℕ :=
          match headers.findIdx? (fun h => h = lit "номер договора") with
          | some i => some i
          | none => headers.findIdx? (fun h => containsSub h (lit "номер договора"))
        match colIdx with
        | none => acc
        | some ci =>
          acc ++ rows.filterMap (fun r =>
            let v := r.getD ci .empty
            if cellIsNa v || decide (pyStrip (cellStr v) = []) then none
            else some (pyStrip (cellStr v)))
    else acc) []
  stableSortBy strLt vals.dedup

def dtMin : PDateTime := ⟨1, 1, 1, 0, 0, 0⟩

def dtKey (d : PDateTime) : List ℕ :=
  [ d.year, d.month, d.day, d.hour, d.minute, d.second ]

def natListLt : List ℕ → List ℕ → Bool
  | [], [] => false
  | [], _ :: _ => true
  | _ :: _, [] => false
  | a :: as_, b :: bs =>
    if a < b then true else if b < a then false else natListLt as_ bs

def dtLtB (a b : PDateTime) : Bool := natListLt (dtKey a) (dtKey b)

/-- Model of `_sort_key_for_operation` on a serialized record: the ISO
date string (else the first token as `%d.%m.%Y`, else `datetime.min`) and
the operation kind. -/
def sortKeyOfRecord (r : OperationRecord) : PDateTime × Str :=
  let dt :=
    match r.date with
    | none => dtMin
    | some ds =>
      match fromIsoFormat ds with
      | some d => d
      | none =>
        match (parseDMYdots ((splitWs ds).headD [])).bind
            (fun v => mkDT v.1 v.2.1 v.2.2 0 0 0) with
        | some d => d
        | none => dtMin
  (dt, r.operationType)

def recordLt (a b : OperationRecord) : Bool :=
  let ka := sortKeyOfRecord a
  let kb := sortKeyOfRecord b
  natListLt (dtKey ka.1) (dtKey kb.1) ||
    (decide (dtKey ka.1 = dtKey kb.1) && strLt ka.2 kb.2)

/-- The `operations_dicts.sort(key=_sort_key_for_operation)` step (stable,
ascending by timestamp then kind). -/
def sortOps (rs : List OperationRecord) : List OperationRecord :=
  stableSortBy recordLt rs

/-- Model of `utils.extract_min_max_dates` (every operation the parsers
build holds a datetime, so only the datetime branch is live). -/
def extractMinMaxDates (ops : List OperationDTO) : Str × Str :=
  let ds := ops.filterMap (fun o => o.date)
  match ds with
  | [] => ([], [])
  | d0 :: rest =>
    let mn := rest.foldl (fun m d => if dtLtB d m then d else m) d0
    let mx := rest.foldl (fun m d => if dtLtB m d then d else m) d0
    (strftimeDMY mn, strftimeDMY mx)

structure DetectedSheets where
  finSheet : Str
  tradesSheet : Str
  transfersSheet : Str
deriving DecidableEq

structure Meta where
  finOpsRawCount : ℕ
  tradeOpsRawCount : ℕ
  transferOpsRawCount : ℕ
  totalOpsCount : ℕ
  finOpsStats : FinStats
  tradeOpsStats : TradeStats
  transferOpsStats : TransferStats
  detectedSheets : DetectedSheets
deriving DecidableEq

structure FullResult where
  accountId : List Str
  dateStart : Str
  dateEnd : Str
  operations : List OperationRecord
  meta : Meta
deriving DecidableEq

/-- The trades result as the orchestrator uses it: an errored category is
replaced by no operations and reset statistics. -/
def tradesUsed (wb : Workbook) : List OperationDTO × TradeStats :=
  let r := tradesParse wb
  if r.2.error.isSome then ([], tradesStatsInit) else r

/-- The transfers result as the orchestrator uses it. -/
def transfersUsed (wb : Workbook) : List OperationDTO × TransferStats :=
  let r := transfersParse wb
  if r.2.error.isSome then ([], transfersStatsInit) else r

/-- Model of `parse_full_statement_xls`: run the three category parsers,
blank an errored trades/transfers category, deduplicate per category,
concatenate, compute the date range, serialize and sort, and assemble the
metadata (the sort itself cannot raise in the model, so the
`except` fallback to the unsorted list is dead). -/
def parseFullStatementXls (wb : Workbook) : FullResult :=
  let accountIds := extractAccountIds wb
  let finR := finParse wb
  let tradesR := tradesUsed wb
  let transfersR := transfersUsed wb
  let dFin := (dedupeOps finR.1).1
  let dTrades := (dedupeOps tradesR.1).1
  let dTransfers := (dedupeOps transfersR.1).1
  let combined := dFin ++ dTrades ++ dTransfers
  let dse := extractMinMaxDates combined
  let sorted := sortOps (combined.map OperationDTO.toDict)
  { accountId := accountIds
    dateStart := dse.1
    dateEnd := dse.2
    operations := sorted
    meta :=
      { finOpsRawCount := finR.2.totalRows
        tradeOpsRawCount := tradesR.2.totalRows
        transferOpsRawCount := transfersR.2.totalRows
        totalOpsCount := combined.length
        finOpsStats := finR.2
        tradeOpsStats := tradesR.2
        transferOpsStats := transfersR.2
        detectedSheets :=
          { finSheet := finR.2.detectedSheet
            tradesSheet := tradesR.2.detectedSheet
            transfersSheet := transfersR.2.detectedSheet } } }

/-! Concrete inputs used by the claim theorems. -/

/-- The raised message of an `Except`, for decidable statements. -/
def exceptErr {ε α : Type} : Except ε α → Option ε
  | .error e => some e
  | .ok _ => none

def c3cols : FinCols :=
  { date := some 0, time := none, operationType := some 1, comment := some 2
    amount := some 3 }

/-- Cash-movement row with a date-typed cell, label "Дивиденды" and the
amount text "1 234,56" (the executed-status cell of the scenario maps to
no column of this parser and is immaterial). -/
def c3rowDt : Row :=
  [ .dt ⟨2023, 3, 15, 0, 0, 0⟩, .s (lit "Дивиденды"), .empty,
    .s (lit "1 234,56") ]

/-- The same row with the date given as the literal text "15.03.2023". -/
def c3rowTxt : Row :=
  [ .s (lit "15.03.2023"), .s (lit "Дивиденды"), .empty, .s (lit "1 234,56") ]

def c3expected : OperationDTO :=
  { date := some ⟨2023, 3, 15, 0, 0, 0⟩, operationType := lit "dividend"
    paymentSum := .finite (Rat.divInt 123456 100), currency := lit "RUB"
    ticker := [], isin := [], regNumber := []
    price := .finite 0, quantity := .finite 0, aci := .finite 0
    comment := [], operationId := [], commission := .finite 0 }

/-- C1: the number coercion `to_float_safe` is total and maps "" and "-"
to 0.0 and "1 234,56" to 1234.56, but the dot-grouped "1.234,56" and the
unicode-minus "−5" are not parsed and fall back to 0.0 (amended from the
claim, which expected 1234.56 and -5.0 for them). -/
theorem c1_to_float_safe_amended :
    (∀ s : Str, pyFloatParse (normalizeNum (pyStrip s)) = none →
      pyFloatParse (replaceChar ',' '.' s) = none →
      toFloatSafeStr s = .finite 0) ∧
    toFloatSafeStr (lit "") = .finite 0 ∧
    toFloatSafeStr (lit "-") = .finite 0 ∧
    toFloatSafeStr (lit "1 234,56") = .finite (Rat.divInt 123456 100) ∧
    Rat.divInt 123456 100 = (1234.56 : ℚ) ∧
    toFloatSafeStr (lit "1.234,56") = .finite 0 ∧
    toFloatSafeStr (lit "−5") = .finite 0 := by
  refine ⟨?_, by decide, by decide, by decide, ?_, by decide, by decide⟩
  · intro s h1 h2
    simp only [toFloatSafeStr]
    split
    · rfl
    · rw [h1, h2]
  · rw [Rat.divInt_eq_div]; norm_num

/-- C1, counterexample to the claim as stated: the code returns 0.0 both
for the dot-grouped "1.234,56" (the claim says 1234.56) and for the
unicode-minus "−5" (the claim says -5.0). -/
theorem c1_counterexample :
    toFloatSafeStr (lit "1.234,56") = .finite 0 ∧
    ¬ toFloatSafeStr (lit "1.234,56") = .finite (Rat.divInt 123456 100) ∧
    toFloatSafeStr (lit "−5") = .finite 0 ∧
    ¬ toFloatSafeStr (lit "−5") = .finite (Rat.divInt (-5) 1) := by
  decide

/-- C1, witness: the totality clause applied at the unparsable text
"abc". -/
theorem c1_witness : toFloatSafeStr (lit "abc") = .finite 0 :=
  c1_to_float_safe_amended.1 (lit "abc") (by decide) (by decide)

/-- C2: the cash-movements header-row locator lowercases each row and
then searches it for the mixed-case literal "Дата создания заявки", which
a lowercased row can never contain; on a sheet whose first row holds both
marker phrases it still reports no header row (and column detection then
raises).  This contradicts the claim and the locator's own docstring. -/
theorem c2_header_row_never_found :
    (containsSub (lowerStr (lit "Дата создания заявки"))
        (lowerStr (lit "Дата создания заявки")) = true ∧
      containsSub (lowerStr (lit "Номер заявки")) (lit "номер заявки") = true) ∧
    finFindHeaderRow
      [ [ .s (lit "Дата создания заявки"), .s (lit "Номер заявки") ] ] = none ∧
    exceptErr (finDetectColumns
      [ [ .s (lit "Дата создания заявки"), .s (lit "Номер заявки") ] ]) =
      some (lit "Не удалось найти строку с заголовками") := by
  decide

/-- C3: with the date supplied as a date-typed cell the row yields exactly
one Operation of kind "dividend" with payment sum 1234.56; the literal
date text "15.03.2023" of the claim is not a format this parser's
datetime reader accepts, so such a row is skipped for missing date
(amended from the claim, which expected the text form to work). -/
theorem c3_dividend_row_amended :
    (finProcessRow c3rowDt c3cols (lit "RUB") none).1 = some c3expected ∧
    c3expected.operationType = lit "dividend" ∧
    c3expected.paymentSum = .finite (Rat.divInt 123456 100) ∧
    Rat.divInt 123456 100 = (1234.56 : ℚ) := by
  refine ⟨by decide, by decide, by decide, ?_⟩
  rw [Rat.divInt_eq_div]; norm_num

/-- C3, counterexample to the claim as stated: with the date given as the
text "15.03.2023" the row produces no Operation at all (the parser's
datetime reader understands only ISO-formatted text), because
`parse_datetime_from_components` rejects the day-first format. -/
theorem c3_counterexample :
    finProcessRow c3rowTxt c3cols (lit "RUB") none = (none, none) ∧
    parseDatetimeFromComponents (lit "15.03.2023") none = none := by
  decide

def c7cols : TradeCols :=
  { tradeColsEmpty with
    dateConclusion := some 0
    quantity := some 1
    assetName := some 2
    isin := some 3 }

def c7row : Row :=
  [ .s (lit "15.10.2021 23:04:40"), .s (lit "10"),
    .s (lit "SBER ао Сбербанк"), .s (lit "RU0009029540") ]

/-- C7: the trades row extractor computes the ticker from the instrument
name (here "SBER") and then discards it — the emitted Operation always
carries an empty ticker field. -/
theorem c7_ticker_discarded :
    tradesExtractTicker (lit "SBER ао Сбербанк") = lit "SBER" ∧
    (tradesProcessRow c7row c7cols).map (fun o => o.ticker) = some [] ∧
    ¬ (tradesProcessRow c7row c7cols).map (fun o => o.ticker) =
      some (lit "SBER") := by
  decide

def c9dto : OperationDTO :=
  { date := none, operationType := lit "x", paymentSum := .finite 0
    currency := [], ticker := [], isin := [], regNumber := []
    price := .finite 0, quantity := .finite 0, aci := .finite 0
    comment := [], operationId := [], commission := .finite 0 }

/-- C9: serialization renders a present timestamp as an ISO-8601 string
and an absent one as Python `None` (JSON null), not as the empty string;
every other canonical field is copied unchanged and the internal
`_sort_key` is dropped (amended from the claim on the absent case). -/
theorem c9_to_dict_amended :
    ∀ op : OperationDTO,
      (∀ d, op.date = some d → (op.toDict).date = some (isoformatDT d)) ∧
      (op.date = none → (op.toDict).date = none) ∧
      (op.toDict).operationType = op.operationType ∧
      (op.toDict).paymentSum = op.paymentSum ∧
      (op.toDict).currency = op.currency ∧
      (op.toDict).ticker = op.ticker ∧
      (op.toDict).isin = op.isin ∧
      (op.toDict).regNumber = op.regNumber ∧
      (op.toDict).price = op.price ∧
      (op.toDict).quantity = op.quantity ∧
      (op.toDict).aci = op.aci ∧
      (op.toDict).comment = op.comment ∧
      (op.toDict).operationId = op.operationId ∧
      (op.toDict).commission = op.commission := by
  intro op
  refine ⟨?_, ?_, rfl, rfl, rfl, rfl, rfl, rfl, rfl, rfl, rfl, rfl, rfl, rfl⟩
  · intro d hd
    simp [OperationDTO.toDict, hd]
  · intro hd
    simp [OperationDTO.toDict, hd]

/-- C9, counterexample to the claim as stated: a record without a
timestamp serializes the date as `None`, not as the empty string. -/
theorem c9_counterexample :
    (OperationDTO.toDict c9dto).date = none ∧
    ¬ (OperationDTO.toDict c9dto).date = some [] := by
  decide

/-- C9, witness: the absent-date clause applied to a concrete record. -/
theorem c9_witness : (OperationDTO.toDict c9dto).date = none :=
  (c9_to_dict_amended c9dto).2.1 (by decide)

/-! Emission predicates and shape lemmas for the invariant claims. -/

/-- An operation the cash-movements parser can emit from some row. -/
def emittedByFin (op : OperationDTO) : Prop :=
  ∃ row cols curr last, (finProcessRow row cols curr last).1 = some op

/-- An operation the trades parser can emit from some row. -/
def emittedByTrades (op : OperationDTO) : Prop :=
  ∃ row cols, tradesProcessRow row cols = some op

/-- An operation the transfers parser can emit from some row. -/
def emittedByTransfers (op : OperationDTO) : Prop :=
  ∃ row cols, transfersProcessRow row cols = some op

lemma pyAbs_ltZero_false (x : PyFloat) : x.pyAbs.ltZero = false := by
  cases x with
  | finite q =>
    simp only [PyFloat.pyAbs, PyFloat.ltZero, decide_eq_false_iff_not, not_lt]
    split
    · next hq => linarith
    · next hq => exact le_of_not_lt hq
  | inf => rfl
  | ninf => rfl
  | nan => rfl

lemma qAbs_ltZero_false (q : ℚ) : (PyFloat.finite (qAbs q)).ltZero = false := by
  simp only [qAbs, PyFloat.ltZero, decide_eq_false_iff_not, not_lt]
  split
  · next hq => linarith
  · next hq => exact le_of_not_lt hq

lemma finProcessRow_shape (row : Row) (cols : FinCols) (curr : Str)
    (last : Option PDateTime) (op : OperationDTO)
    (h : (finProcessRow row cols curr last).1 = some op) :
    ∃ cd, op = finBuildOp row cols curr cd := by
  unfold finProcessRow at h
  cases hd : finExtractDate row cols last with
  | none => rw [hd] at h; exact Option.noConfusion h
  | some cd =>
    rw [hd] at h
    replace h :
        (if finShouldSkip (finOperType row cols) (finCommentText row cols)
            (finAmount row cols) (finLabelSource row cols) then
          ((none, some cd) : Option OperationDTO × Option PDateTime)
        else if determineOperationType (finOperType row cols)
            (finCommentText row cols) (finAmount row cols) = lit "_skip_" then
          (none, some cd)
        else (some (finBuildOp row cols curr cd), some cd)).1 = some op := h
    split at h
    · exact Option.noConfusion h
    · split at h
      · exact Option.noConfusion h
      · exact ⟨cd, (Option.some.inj h).symm⟩

lemma tradesOut_shape (row : Row) (cols : TradeCols) (o : OperationDTO)
    (h : tradesProcessRowOut row cols = .produced o) :
    ∃ dt, o = tradesBuildOp row cols dt := by
  unfold tradesProcessRowOut at h
  cases hdt : tradesParseDatetime (extractFieldAt row cols.dateConclusion) with
  | none => rw [hdt] at h; exact TradeRowOut.noConfusion h
  | some dt =>
    rw [hdt] at h
    replace h :
        (if (tradesQtyF row cols).eqZero then TradeRowOut.skipNoQty
        else TradeRowOut.produced (tradesBuildOp row cols dt)) =
          .produced o := h
    split at h
    · exact TradeRowOut.noConfusion h
    · exact ⟨dt, (TradeRowOut.produced.inj h).symm⟩

lemma tradesProcessRow_shape (row : Row) (cols : TradeCols)
    (op : OperationDTO) (h : tradesProcessRow row cols = some op) :
    ∃ dt, op = tradesBuildOp row cols dt := by
  unfold tradesProcessRow at h
  cases ho : tradesProcessRowOut row cols with
  | skipNoDate => rw [ho] at h; exact Option.noConfusion h
  | skipNoQty => rw [ho] at h; exact Option.noConfusion h
  | produced o =>
    rw [ho] at h
    obtain ⟨dt, rfl⟩ := tradesOut_shape row cols o ho
    exact ⟨dt, (Option.some.inj h).symm⟩

lemma transfersOut_shape (row : Row) (cols : TransferCols)
    (o : OperationDTO)
    (h : transfersProcessRowOut row cols = .produced o) :
    ∃ dt, o = transfersBuildOp row cols dt := by
  unfold transfersProcessRowOut at h
  cases hdt : transfersParseDatetime (transfersDateCell row cols) with
  | none => rw [hdt] at h; exact TransferRowOut.noConfusion h
  | some dt =>
    rw [hdt] at h
    replace h :
        (if (transfersQty row cols).eqZero then TransferRowOut.skipNoQty
        else if ¬ isConversionOperation (extractFieldAt row cols.operationType)
            (extractFieldAt row cols.comment) then
          TransferRowOut.skipNotConversion
        else TransferRowOut.produced (transfersBuildOp row cols dt)) =
          .produced o := h
    split at h
    · exact TransferRowOut.noConfusion h
    · split at h
      · exact TransferRowOut.noConfusion h
      · exact ⟨dt, (TransferRowOut.produced.inj h).symm⟩

lemma transfersProcessRow_shape (row : Row) (cols : TransferCols)
    (op : OperationDTO) (h : transfersProcessRow row cols = some op) :
    ∃ dt, op = transfersBuildOp row cols dt := by
  unfold transfersProcessRow at h
  cases ho : transfersProcessRowOut row cols with
  | skipNoDate => rw [ho] at h; exact Option.noConfusion h
  | skipNoQty => rw [ho] at h; exact Option.noConfusion h
  | skipNotConversion => rw [ho] at h; exact Option.noConfusion h
  | produced o =>
    rw [ho] at h
    obtain ⟨dt, rfl⟩ := transfersOut_shape row cols o ho
    exact ⟨dt, (Option.some.inj h).symm⟩

def c4tCols : TransferCols :=
  { date := some 0, operationType := some 1, assetName := some 2
    comment := some 3, quantity := some 4 }

/-- Transfer row whose quantity cell is empty (NaN in pandas). -/
def c4tRow : Row :=
  [ .s (lit "15.03.2023"), .s (lit "Перевод"), .s (lit "X"),
    .s (lit "конвертация"), .empty ]

def c4finCols : FinCols :=
  { date := some 0, time := none, operationType := some 1, comment := some 2
    amount := some 3 }

def c4finRow : Row :=
  [ .dt ⟨2024, 1, 10, 0, 0, 0⟩, .s (lit "Дивиденды"), .empty, .num 7 ]

lemma zero_ltZero_false : (PyFloat.finite 0).ltZero = false := by
  simp only [PyFloat.ltZero, decide_eq_false_iff_not, not_lt]
  exact le_refl 0

/-- C4: no Operation emitted by any of the three category parsers carries
a negative payment sum or a negative quantity — direction lives in the
kind.  (Amended from the claim's "≥ 0": a transfers row with an empty
quantity cell produces quantity NaN, which is neither negative nor ≥ 0.) -/
theorem c4_never_negative_amended :
    ∀ op : OperationDTO,
      emittedByFin op ∨ emittedByTrades op ∨ emittedByTransfers op →
      op.paymentSum.ltZero = false ∧ op.quantity.ltZero = false := by
  intro op h
  rcases h with hf | ht | htr
  · obtain ⟨row, cols, curr, last, hrow⟩ := hf
    obtain ⟨cd, rfl⟩ := finProcessRow_shape _ _ _ _ _ hrow
    exact ⟨qAbs_ltZero_false _, zero_ltZero_false⟩
  · obtain ⟨row, cols, hrow⟩ := ht
    obtain ⟨dt, rfl⟩ := tradesProcessRow_shape _ _ _ hrow
    exact ⟨pyAbs_ltZero_false _, pyAbs_ltZero_false _⟩
  · obtain ⟨row, cols, hrow⟩ := htr
    obtain ⟨dt, rfl⟩ := transfersProcessRow_shape _ _ _ hrow
    exact ⟨zero_ltZero_false, pyAbs_ltZero_false _⟩

/-- C4, counterexample to the claim as stated: an emitted transfer
operation whose quantity is NaN, for which `quantity ≥ 0` is false. -/
theorem c4_counterexample :
    (transfersProcessRow c4tRow c4tCols).map (fun o => o.quantity) =
      some .nan ∧
    PyFloat.geZero .nan = false ∧ PyFloat.ltZero .nan = false := by
  decide

/-- C4, witness: the theorem applied to a concrete dividend row of the
cash-movements parser. -/
theorem c4_witness :
    (finBuildOp c4finRow c4finCols (lit "RUB")
      ⟨2024, 1, 10, 0, 0, 0⟩).paymentSum.ltZero = false ∧
    (finBuildOp c4finRow c4finCols (lit "RUB")
      ⟨2024, 1, 10, 0, 0, 0⟩).quantity.ltZero = false :=
  c4_never_negative_amended
    (finBuildOp c4finRow c4finCols (lit "RUB") ⟨2024, 1, 10, 0, 0, 0⟩)
    (Or.inl ⟨c4finRow, c4finCols, lit "RUB", none, by decide⟩)

lemma findIsin_sound (s : Str) : ∀ (b : Bool) (r : Str),
    findIsin b s = some r → isinShape r = true := by
  induction s with
  | nil => intro b r h; simp [findIsin] at h
  | cons c rest ih =>
    intro b r h
    unfold findIsin at h
    simp only at h
    split at h
    · next hcond =>
      simp only [Bool.and_eq_true] at hcond
      simp only [Option.some.injEq] at h
      rw [← h]
      exact hcond.1.2
    · exact ih _ _ h

lemma extractIsin_shape (s : Str) :
    extractIsin s = [] ∨ isinShape (extractIsin s) = true := by
  unfold extractIsin
  split
  · exact Or.inl rfl
  · cases hf : findIsin false s with
    | none => simp [hf]
    | some w => simp only [hf]; exact Or.inr (findIsin_sound s false w hf)

/-- C8: every Operation of the cash-movements parser has an ISIN that is
empty or a 12-character match of the ISIN pattern.  (Amended from the
claim: the trades parser copies the raw ISIN-column text unvalidated, and
the transfers parser falls back to the whole stripped asset name when no
ISIN occurs in it, so the invariant holds only for the cash-movements
category.) -/
theorem c8_isin_amended :
    (∀ op : OperationDTO, emittedByFin op →
      op.isin = [] ∨ isinShape op.isin = true) ∧
    (∀ s : Str, extractIsin s = [] ∨ isinShape (extractIsin s) = true) := by
  constructor
  · intro op h
    obtain ⟨row, cols, curr, last, hrow⟩ := h
    obtain ⟨cd, rfl⟩ := finProcessRow_shape _ _ _ _ _ hrow
    exact extractIsin_shape (finCommentText row cols)
  · exact extractIsin_shape

def c8tCols : TransferCols :=
  { date := some 0, operationType := some 1, assetName := some 2
    comment := some 3, quantity := some 4 }

def c8tRow : Row :=
  [ .s (lit "15.03.2023"), .s (lit "Перевод ЦБ"), .s (lit "Газпром ао"),
    .s (lit "конвертация валюты"), .s (lit "5") ]

/-- C8, counterexample to the claim as stated: a transfers operation whose
ISIN field is the whole asset name "Газпром ао", neither empty nor an
ISIN-pattern match. -/
theorem c8_counterexample :
    (transfersProcessRow c8tRow c8tCols).map (fun o => o.isin) =
      some (lit "Газпром ао") ∧
    ¬ (lit "Газпром ао" = ([] : Str) ∨ isinShape (lit "Газпром ао") = true) := by
  decide

/-- C8, witness: the cash-movements clause applied to a concrete emitted
operation (its comment is empty, so its ISIN is empty). -/
theorem c8_witness :
    (finBuildOp c4finRow c4finCols (lit "RUB") ⟨2024, 1, 10, 0, 0, 0⟩).isin
      = [] ∨
    isinShape (finBuildOp c4finRow c4finCols (lit "RUB")
      ⟨2024, 1, 10, 0, 0, 0⟩).isin = true :=
  c8_isin_amended.1
    (finBuildOp c4finRow c4finCols (lit "RUB") ⟨2024, 1, 10, 0, 0, 0⟩)
    ⟨c4finRow, c4finCols, lit "RUB", none, by decide⟩

/-! Deduplication lemmas for C5. -/

lemma dedupeGo_sublist (seen : List OpKey) (l : List OperationDTO) :
    List.Sublist (dedupeGo seen l) l := by
  induction l generalizing seen with
  | nil => simp [dedupeGo]
  | cons o rest ih =>
    unfold dedupeGo
    split
    · exact (ih seen).cons o
    · exact (ih _).cons₂ o

lemma dedupeGo_nodup (seen : List OpKey) (l : List OperationDTO) :
    ((dedupeGo seen l).map opKey).Nodup ∧
    ∀ k ∈ (dedupeGo seen l).map opKey, k ∉ seen := by
  induction l generalizing seen with
  | nil => simp [dedupeGo]
  | cons o rest ih =>
    unfold dedupeGo
    split
    · exact ih seen
    · next hk =>
      obtain ⟨ihn, ihs⟩ := ih (opKey o :: seen)
      refine ⟨?_, ?_⟩
      · simp only [List.map_cons, List.nodup_cons]
        exact ⟨fun hmem => (ihs _ hmem) (List.mem_cons_self _ _), ihn⟩
      · intro k hkmem
        simp only [List.map_cons, List.mem_cons] at hkmem
        rcases hkmem with rfl | hkmem
        · exact hk
        · exact fun hks => (ihs _ hkmem) (List.mem_cons_of_mem _ hks)

lemma dedupeGo_covers (seen : List OpKey) (l : List OperationDTO) :
    ∀ o ∈ l, opKey o ∈ seen ∨
      ∃ o2 ∈ dedupeGo seen l, opKey o2 = opKey o := by
  induction l generalizing seen with
  | nil => intro o h; cases h
  | cons x rest ih =>
    intro o hmem
    unfold dedupeGo
    split
    · next hk =>
      rcases List.mem_cons.mp hmem with rfl | hmem2
      · exact Or.inl hk
      · exact ih seen o hmem2
    · next hk =>
      rcases List.mem_cons.mp hmem with rfl | hmem2
      · exact Or.inr ⟨o, List.mem_cons_self _ _, rfl⟩
      · rcases ih (opKey x :: seen) o hmem2 with hin | ⟨o2, ho2, hko⟩
        · rcases List.mem_cons.mp hin with heq | hin2
          · exact Or.inr ⟨x, List.mem_cons_self _ _, heq.symm⟩
          · exact Or.inl hin2
        · exact Or.inr ⟨o2, List.mem_cons_of_mem _ ho2, hko⟩

lemma dedupeGo_first (seen : List OpKey) (l : List OperationDTO) :
    ∀ o ∈ dedupeGo seen l, opKey o ∉ seen ∧
      ∃ pre post, l = pre ++ o :: post ∧
        ∀ p ∈ pre, opKey p ∈ seen ∨ ¬ opKey p = opKey o := by
  induction l generalizing seen with
  | nil => intro o h; simp [dedupeGo] at h
  | cons x rest ih =>
    intro o hmem
    unfold dedupeGo at hmem
    split at hmem
    · next hk =>
      obtain ⟨hns, pre, post, heq, hpre⟩ := ih seen o hmem
      refine ⟨hns, x :: pre, post, by rw [heq]; rfl, ?_⟩
      intro p hp
      rcases List.mem_cons.mp hp with rfl | hp2
      · exact Or.inl hk
      · exact hpre p hp2
    · next hk =>
      rcases List.mem_cons.mp hmem with rfl | hmem2
      · exact ⟨hk, [], rest, rfl, fun p hp => absurd hp (List.not_mem_nil p)⟩
      · obtain ⟨hns, pre, post, heq, hpre⟩ := ih (opKey x :: seen) o hmem2
        have hxo : ¬ opKey x = opKey o := fun hxy =>
          hns (hxy ▸ List.mem_cons_self _ _)
        refine ⟨fun hs => hns (List.mem_cons_of_mem _ hs), x :: pre, post,
          by rw [heq]; rfl, ?_⟩
        intro p hp
        rcases List.mem_cons.mp hp with rfl | hp2
        · exact Or.inr hxo
        · rcases hpre p hp2 with hin | hne
          · rcases List.mem_cons.mp hin with heq2 | hin2
            · exact Or.inr (by rw [heq2]; exact hxo)
            · exact Or.inl hin2
          · exact Or.inr hne

/-- C5: the dedup key is the trimmed external id when non-blank, else the
composite of ISO date, kind, the raw (signed) float sum, ticker and ISIN;
deduplication keeps an order-stable subselection whose keys are distinct,
covers every input key, and each survivor is the first occurrence of its
key.  (Amended from the claim: the composite uses the sum as stored, not
its absolute value.) -/
theorem c5_dedupe_amended :
    (∀ op : OperationDTO, ¬ pyStrip op.operationId = [] →
      opKey op = .byId (pyStrip op.operationId)) ∧
    (∀ op : OperationDTO, pyStrip op.operationId = [] →
      opKey op = .auto (op.date.elim [] isoformatDT) op.operationType
        op.paymentSum op.ticker op.isin) ∧
    (∀ ops, List.Sublist (dedupeOps ops).1 ops) ∧
    (∀ ops, ((dedupeOps ops).1.map opKey).Nodup) ∧
    (∀ ops, ∀ o ∈ ops, ∃ o2 ∈ (dedupeOps ops).1, opKey o2 = opKey o) ∧
    (∀ ops, ∀ o ∈ (dedupeOps ops).1, ∃ pre post, ops = pre ++ o :: post ∧
      ∀ p ∈ pre, ¬ opKey p = opKey o) := by
  refine ⟨?_, ?_, ?_, ?_, ?_, ?_⟩
  · intro op h
    simp only [opKey]
    rw [if_neg h]
  · intro op h
    simp only [opKey]
    rw [if_pos h]
  · intro ops
    exact dedupeGo_sublist [] ops
  · intro ops
    exact (dedupeGo_nodup [] ops).1
  · intro ops o ho
    rcases dedupeGo_covers [] ops o ho with hin | h
    · exact absurd hin (List.not_mem_nil _)
    · exact h
  · intro ops o ho
    obtain ⟨_, pre, post, heq, hpre⟩ := dedupeGo_first [] ops o ho
    refine ⟨pre, post, heq, fun p hp => ?_⟩
    rcases hpre p hp with hin | hne
    · exact absurd hin (List.not_mem_nil _)
    · exact hne

/-- Modelled from the spec's words for comparison: the dedup key "as the
spec states it", with the ABSOLUTE sum in the composite. -/
def specOpKeyC5 (op : OperationDTO) : OpKey :=
  if pyStrip op.operationId = [] then
    .auto (op.date.elim [] isoformatDT) op.operationType op.paymentSum.pyAbs
      op.ticker op.isin
  else .byId (pyStrip op.operationId)

def c5opA : OperationDTO :=
  { date := some ⟨2023, 1, 2, 0, 0, 0⟩, operationType := lit "dividend"
    paymentSum := .finite 5, currency := lit "RUB", ticker := [], isin := []
    regNumber := [], price := .finite 0, quantity := .finite 0
    aci := .finite 0, comment := [], operationId := [], commission := .finite 0 }

def c5opB : OperationDTO := { c5opA with paymentSum := .finite (-5) }

/-- C5, counterexample to the claim as stated: two id-less operations
identical up to the sign of their sum share the spec's absolute-sum key,
so under the claim only the first would be kept — the code's key keeps
the sign and both survive deduplication. -/
theorem c5_counterexample :
    specOpKeyC5 c5opA = specOpKeyC5 c5opB ∧
    ¬ opKey c5opA = opKey c5opB ∧
    (dedupeOps [ c5opA, c5opB ]).1 = [ c5opA, c5opB ] := by
  decide

def c5idOp : OperationDTO := { c5opA with operationId := lit " 42 " }

/-- C5, witness: the id clause applied to an operation with external id
" 42 ". -/
theorem c5_witness : opKey c5idOp = .byId (pyStrip c5idOp.operationId) :=
  c5_dedupe_amended.1 c5idOp (by decide)

/-! Lemmas and theorems for C6. -/

lemma insertStable_length {α : Type} (lt : α → α → Bool) (x : α)
    (l : List α) : (insertStable lt x l).length = l.length + 1 := by
  induction l with
  | nil => rfl
  | cons y ys ih =>
    unfold insertStable
    split
    · simp [ih]
    · simp

lemma stableSortBy_length {α : Type} (lt : α → α → Bool) (l : List α) :
    (stableSortBy lt l).length = l.length := by
  induction l with
  | nil => rfl
  | cons x xs ih =>
    unfold stableSortBy
    rw [insertStable_length, ih]
    rfl

lemma finParseOk_error (wb : Workbook) (sn : Str)
    (h : (finParseOk wb sn).2.error.isSome = true) :
    (finParseOk wb sn).1 = [] := by
  unfold finParseOk at h ⊢
  cases hd : finDetectColumns (finDf wb sn) with
  | error e => rfl
  | ok colsCurr =>
    rw [hd] at h
    exact Bool.noConfusion h

lemma tradesParseOk_error (wb : Workbook) (sn : Str)
    (h : (tradesParseOk wb sn).2.error.isSome = true) :
    (tradesParseOk wb sn).1 = [] := by
  unfold tradesParseOk at h ⊢
  cases hd : tradesDetectColumns (tradesDf wb sn) with
  | error e => rfl
  | ok cols =>
    rw [hd] at h
    exact Bool.noConfusion h

lemma transfersParseOk_error (wb : Workbook) (sn : Str)
    (h : (transfersParseOk wb sn).2.error.isSome = true) :
    (transfersParseOk wb sn).1 = [] := by
  exact absurd h (by simp [transfersParseOk, transfersProcessRows])

/-- C6: an errored category parser returns an empty operation list with
the error recorded in its statistics (the `try/except` boundary of
`parse`); the orchestrator replaces an errored trades or transfers
category by zero operations with reset statistics, and still returns a
complete result whose operation count matches its operation list. -/
theorem c6_error_isolation :
    (∀ wb, (finParse wb).2.error.isSome = true → (finParse wb).1 = []) ∧
    (∀ wb, (tradesParse wb).2.error.isSome = true → (tradesParse wb).1 = []) ∧
    (∀ wb, (transfersParse wb).2.error.isSome = true →
      (transfersParse wb).1 = []) ∧
    (∀ wb, (tradesParse wb).2.error.isSome = true →
      tradesUsed wb = ([], tradesStatsInit)) ∧
    (∀ wb, (transfersParse wb).2.error.isSome = true →
      transfersUsed wb = ([], transfersStatsInit)) ∧
    (∀ wb, (parseFullStatementXls wb).meta.totalOpsCount =
      (parseFullStatementXls wb).operations.length) := by
  refine ⟨?_, ?_, ?_, ?_, ?_, ?_⟩
  · intro wb h
    unfold finParse at h ⊢
    cases hs : finFindSheet (sheetNames wb) with
    | error e => rfl
    | ok sn =>
      rw [hs] at h
      exact finParseOk_error wb sn h
  · intro wb h
    unfold tradesParse at h ⊢
    cases hs : tradesFindSheet (sheetNames wb) with
    | error e => rfl
    | ok sn =>
      rw [hs] at h
      exact tradesParseOk_error wb sn h
  · intro wb h
    unfold transfersParse at h ⊢
    cases hs : transfersFindSheet (sheetNames wb) with
    | error e => rfl
    | ok sn =>
      rw [hs] at h
      exact transfersParseOk_error wb sn h
  · intro wb h
    unfold tradesUsed
    rw [if_pos]
    rw [h]
  · intro wb h
    unfold transfersUsed
    rw [if_pos]
    rw [h]
  · intro wb
    simp only [parseFullStatementXls, sortOps, stableSortBy_length,
      List.length_map]

/-- C6, witness: a workbook without sheets errors in the cash-movements
parser and contributes no operations. -/
theorem c6_witness : (finParse []).1 = [] :=
  c6_error_isolation.1 [] (by decide)

/-! Lemmas and theorems for C10. -/

lemma getD_set_ne (g : Grid) (i j : ℕ) (r : Row) (h : ¬ i = j) :
    (g.set i r).getD j [] = g.getD j [] := by
  simp [List.getD_eq_getD_get?, List.get?_eq_getElem?,
    List.getElem?_set_ne (fun hh => h hh)]

lemma find?_congrB {α : Type} (l : List α) (p q : α → Bool)
    (h : ∀ a ∈ l, p a = q a) : l.find? p = l.find? q := by
  induction l with
  | nil => rfl
  | cons x xs ih =>
    rw [List.find?_cons, List.find?_cons, h x (List.mem_cons_self _ _)]
    cases q x
    · exact ih (fun a ha => h a (List.mem_cons_of_mem _ ha))
    · rfl

lemma find?_over_rows (g g2 : Grid) (f : Row → Bool) (n : ℕ)
    (h : ∀ j ∈ List.range n, g2.getD j [] = g.getD j []) :
    (List.range n).find? (fun i => f (g2.getD i [])) =
      (List.range n).find? (fun i => f (g.getD i [])) :=
  find?_congrB _ _ _ (fun j hj => by rw [h j hj])

lemma tradesFindHeaderRow_set (g : Grid) (i : ℕ) (r : Row) (h20 : 20 ≤ i) :
    tradesFindHeaderRow (g.set i r) = tradesFindHeaderRow g := by
  have hrow : ∀ j ∈ List.range (min 20 g.length),
      (g.set i r).getD j [] = g.getD j [] := by
    intro j hj
    have hj20 : j < 20 := lt_of_lt_of_le (List.mem_range.mp hj) (min_le_left _ _)
    exact getD_set_ne g i j r (by omega)
  unfold tradesFindHeaderRow
  rw [List.length_set]
  rw [find?_over_rows g (g.set i r) tradesHeaderStrictRow (min 20 g.length) hrow]
  rw [find?_over_rows g (g.set i r) tradesHeaderLooseRow (min 20 g.length) hrow]

lemma tradesGo_congr (g g2 : Grid) (cols : TradeCols) (w : List ℕ)
    (h : ∀ j ∈ w, g2.getD j [] = g.getD j []) :
    ∀ ops p nd nq com,
      tradesGo g2 cols w ops p nd nq com = tradesGo g cols w ops p nd nq com := by
  induction w with
  | nil => intro ops p nd nq com; rfl
  | cons j rest ih =>
    intro ops p nd nq com
    unfold tradesGo
    rw [h j (List.mem_cons_self _ _)]
    have hr : ∀ k ∈ rest, g2.getD k [] = g.getD k [] :=
      fun k hk => h k (List.mem_cons_of_mem _ hk)
    cases tradesProcessRowOut (g.getD j []) cols with
    | produced op => exact ih hr _ _ _ _ _
    | skipNoDate => exact ih hr _ _ _ _ _
    | skipNoQty => exact ih hr _ _ _ _ _

/-- C10: the trades row loop examines at most 5000 data rows after the
header row — `total_rows` counts at most 5000 rows, and changing any row
at an index at or beyond `start_row + 5000` cannot change the parse
result (neither the operations nor the statistics). -/
theorem c10_trades_row_cap :
    (∀ g cols, (tradesProcessRows g cols).2.totalRows ≤ 5000) ∧
    (∀ g cols i r, tradesStartRow g + 5000 ≤ i →
      tradesProcessRows (g.set i r) cols = tradesProcessRows g cols) := by
  constructor
  · intro g cols
    simp only [tradesProcessRows, tradesWindow, List.length_range']
    omega
  · intro g cols i r hi
    have h5000 : 5000 ≤ i := le_trans (Nat.le_add_left _ _) hi
    have hh : tradesFindHeaderRow (g.set i r) = tradesFindHeaderRow g :=
      tradesFindHeaderRow_set g i r (by omega)
    have hstart : tradesStartRow (g.set i r) = tradesStartRow g := by
      unfold tradesStartRow
      rw [hh]
    have hwin : tradesWindow (g.set i r) = tradesWindow g := by
      unfold tradesWindow
      rw [hstart, List.length_set]
    have hcells : ∀ j ∈ tradesWindow g, (g.set i r).getD j [] = g.getD j [] := by
      intro j hj
      unfold tradesWindow at hj
      have hj2 := (List.mem_range'_1.mp hj).2
      exact getD_set_ne g i j r (by omega)
    simp only [tradesProcessRows]
    rw [hwin, tradesGo_congr g (g.set i r) cols (tradesWindow g) hcells]

/-- C10, witness: the invariance clause applied to the empty grid with a
write at index 5000. -/
theorem c10_witness :
    tradesProcessRows (([] : Grid).set 5000 []) tradeColsEmpty =
      tradesProcessRows [] tradeColsEmpty :=
  c10_trades_row_cap.2 [] tradeColsEmpty 5000 [] (by decide)
